import Mathlib

/-!
POL scene-file decoder, shallowly embedded from
`src/opengb/src/loaders/polloader.rs` of the OpenPAL3 repository.

Bytes are modelled as natural numbers (each below 256 in real inputs), a byte
source as a `List Nat` consumed from the front, and every fallible read as an
`Except` value.  Rust panics inside the decoder (bad signature, missing
mandatory vertex attribute, invalid UTF-8 light-map name) are modelled as the
error values the specification names for them.  32-bit floats are carried as
their little-endian 32-bit bit patterns; the IEEE-754 interpretation is
applied exactly where the Rust code computes on float values, namely the
material clamp `.min(128.).max(0.)`.
-/

namespace Pol

set_option maxRecDepth 10000

/-- Error taxonomy of the decoder, as named by the specification (section 7). -/
inductive PolError
  | truncated
  | invalidSignature
  | missingMandatoryAttribute
  | invalidText
deriving DecidableEq

/-- A byte source: bytes still to be consumed, front first. -/
abbrev Bytes := List Nat

instance {ε α : Type} [DecidableEq ε] [DecidableEq α] :
    DecidableEq (Except ε α) := fun x y =>
  match x, y with
  | .error a, .error b =>
    if h : a = b then isTrue (congrArg Except.error h)
    else isFalse (fun hc => h (Except.error.inj hc))
  | .error _, .ok _ => isFalse (fun hc => Except.noConfusion hc)
  | .ok _, .error _ => isFalse (fun hc => Except.noConfusion hc)
  | .ok a, .ok b =>
    if h : a = b then isTrue (congrArg Except.ok h)
    else isFalse (fun hc => h (Except.ok.inj hc))

/-- Little-endian 16-bit value of two bytes. -/
def le16 (b0 b1 : Nat) : Nat := b0 + 256 * b1

/-- Little-endian 32-bit value of four bytes. -/
def le32 (b0 b1 b2 b3 : Nat) : Nat :=
  b0 + 256 * b1 + 65536 * b2 + 16777216 * b3

/-- Sequencing of fallible reads: Rust's `?` operator on `io::Result`. -/
def pbind {α β : Type} (m : Except PolError (α × Bytes))
    (k : α → Bytes → Except PolError β) : Except PolError β :=
  match m with
  | .error e => .error e
  | .ok (a, s) => k a s

/-- Sequencing of a fallible read producing only a stream. -/
def sbind {β : Type} (m : Except PolError Bytes)
    (k : Bytes → Except PolError β) : Except PolError β :=
  match m with
  | .error e => .error e
  | .ok s => k s

/-- Reads exactly `n` raw bytes.  This models both `Read::read_exact` and the
repository's `read_vec` helper.  `read_vec` is declared outside the sources
shown under src/; modelled from the spec (section 4.1): fail with `Truncated`
when fewer than `n` bytes remain, otherwise consume exactly `n` bytes. -/
def readBytes (n : Nat) (s : Bytes) : Except PolError (Bytes × Bytes) :=
  if n ≤ s.length then .ok (s.take n, s.drop n) else .error .truncated

/-- Reads a little-endian `u32` (also used for the bit pattern of an `f32`
and for the `i32` vertex-format word, which shares its 32-bit pattern). -/
def readU32 (s : Bytes) : Except PolError (Nat × Bytes) :=
  match s with
  | b0 :: b1 :: b2 :: b3 :: rest => .ok (le32 b0 b1 b2 b3, rest)
  | _ => .error .truncated

/-- Reads a little-endian `u16`. -/
def readU16 (s : Bytes) : Except PolError (Nat × Bytes) :=
  match s with
  | b0 :: b1 :: rest => .ok (le16 b0 b1, rest)
  | _ => .error .truncated

/-- Reads `n` consecutive 32-bit words (`read_f32_into` on an `n`-float
buffer, with the error propagated by `?`). -/
def readWords : Nat → Bytes → Except PolError (List Nat × Bytes)
  | 0, s => .ok ([], s)
  | n + 1, s =>
    pbind (readU32 s) fun w s1 =>
    pbind (readWords n s1) fun ws s2 => .ok (w :: ws, s2)

/-- Reads `n` consecutive 32-bit words with the failure discarded, as the
source does at polloader.rs line 195 where `read_f32_into` is called without
`?` on the 3-float `unknown2` block.  On failure `read_exact` has consumed
the whole remaining source and leaves the buffer contents unspecified (we
pick all-zero words); the error value itself is dropped. -/
def readWordsLossy (n : Nat) (s : Bytes) : List Nat × Bytes :=
  match readWords n s with
  | .ok (ws, r) => (ws, r)
  | .error _ => (List.replicate n 0, [])

/-! IEEE-754 binary32 values, exactly as far as the decoder computes on them:
a stored pattern is decoded to a rational (or a NaN / infinity marker), and
`min` / `max` follow Rust's `f32::min` / `f32::max` (a NaN operand yields the
other operand).  Decoding and comparisons are exact, so rationals lose
nothing; the two IEEE zero patterns both decode to the rational zero, which
no decoded observation distinguishes. -/

/-- A binary32 value as the decoder observes it. -/
inductive Flt
  | nan
  | neginf
  | posinf
  | fin (q : ℚ)
deriving DecidableEq

/-- Rust `f32::min`: if one argument is NaN the other is returned. -/
def fmin : Flt → Flt → Flt
  | .nan, b => b
  | a, .nan => a
  | .neginf, _ => .neginf
  | _, .neginf => .neginf
  | .posinf, b => b
  | a, .posinf => a
  | .fin p, .fin q => .fin (min p q)

/-- Rust `f32::max`: if one argument is NaN the other is returned. -/
def fmax : Flt → Flt → Flt
  | .nan, b => b
  | a, .nan => a
  | .posinf, _ => .posinf
  | _, .posinf => .posinf
  | .neginf, b => b
  | a, .neginf => a
  | .fin p, .fin q => .fin (max p q)

/-- Exact decoding of a 32-bit pattern as an IEEE-754 binary32 value: a
subnormal is (sign) m / 2^149, a normal is (sign) (2^23 + m) 2^e / 2^150,
written with `mkRat` over integer arithmetic so the value is exact. -/
def decodeF32 (w : Nat) : Flt :=
  let sign : Nat := (w / 2 ^ 31) % 2
  let e : Nat := (w / 2 ^ 23) % 2 ^ 8
  let m : Nat := w % 2 ^ 23
  let sgn : Int := if sign = 1 then -1 else 1
  if e = 255 then
    if m = 0 then (if sign = 1 then .neginf else .posinf) else .nan
  else if e = 0 then .fin (mkRat (sgn * (m : Int)) (2 ^ 149))
  else .fin (mkRat (sgn * ((2 ^ 23 + m : Nat) : Int) *
    ((2 ^ e : Nat) : Int)) (2 ^ 150))

/-- The material-float clamp `value.min(128.).max(0.)` from polloader.rs
line 272. -/
def clampF32 (x : Flt) : Flt := fmax (fmin x (.fin 128)) (.fin 0)

/-- Validity of a byte list as UTF-8, exactly the well-formedness Rust's
`String::from_utf8` checks: ASCII, and 2-, 3-, 4-byte sequences with the
usual continuation ranges, rejecting overlong forms, surrogates and code
points above U+10FFFF. -/
def utf8Cont (b : Nat) : Bool := 0x80 ≤ b && b ≤ 0xBF

def utf8Valid : List Nat → Bool
  | [] => true
  | b :: rest =>
    if b ≤ 0x7F then utf8Valid rest
    else if 0xC2 ≤ b && b ≤ 0xDF then
      match rest with
      | c1 :: r => utf8Cont c1 && utf8Valid r
      | [] => false
    else if b = 0xE0 then
      match rest with
      | c1 :: c2 :: r => (0xA0 ≤ c1 && c1 ≤ 0xBF) && utf8Cont c2 && utf8Valid r
      | _ => false
    else if (0xE1 ≤ b && b ≤ 0xEC) || (0xEE ≤ b && b ≤ 0xEF) then
      match rest with
      | c1 :: c2 :: r => utf8Cont c1 && utf8Cont c2 && utf8Valid r
      | _ => false
    else if b = 0xED then
      match rest with
      | c1 :: c2 :: r => (0x80 ≤ c1 && c1 ≤ 0x9F) && utf8Cont c2 && utf8Valid r
      | _ => false
    else if b = 0xF0 then
      match rest with
      | c1 :: c2 :: c3 :: r =>
        (0x90 ≤ c1 && c1 ≤ 0xBF) && utf8Cont c2 && utf8Cont c3 && utf8Valid r
      | _ => false
    else if 0xF1 ≤ b && b ≤ 0xF3 then
      match rest with
      | c1 :: c2 :: c3 :: r =>
        utf8Cont c1 && utf8Cont c2 && utf8Cont c3 && utf8Valid r
      | _ => false
    else if b = 0xF4 then
      match rest with
      | c1 :: c2 :: c3 :: r =>
        (0x80 ≤ c1 && c1 ≤ 0x8F) && utf8Cont c2 && utf8Cont c3 && utf8Valid r
      | _ => false
    else false

/-! Data model, mirroring the Rust structures field for field.  Floats are
stored as their 32-bit patterns except for the clamped material float, on
which the code computes. -/

/-- `VertexComponent::has`: bit test on the vertex-format mask. -/
def hasComp (mask c : Nat) : Bool := mask &&& c != 0

structure PolVertexPosition where
  x : Nat
  y : Nat
  z : Nat
deriving DecidableEq

structure PolVertexTexCoord where
  u : Nat
  v : Nat
deriving DecidableEq

structure PolVertex where
  position : PolVertexPosition
  unknown2 : Option (List Nat)
  unknown4 : Option (List Nat)
  unknown8 : Option (List Nat)
  tex_coord : PolVertexTexCoord
  unknown20 : Option (List Nat)
  unknown40 : Option (List Nat)
  unknown80 : Option (List Nat)
  unknown100 : Option (List Nat)
deriving DecidableEq

structure PolMaterialInfo where
  unknown_dw0 : Nat
  unknown_68 : List Nat
  unknown_float : Flt
  light_map_count : Nat
  light_map_names : List (List Nat)
deriving DecidableEq

structure PolTriangle where
  indices : List Nat
deriving DecidableEq

structure PolMesh where
  aabb_min : List Nat
  aabb_max : List Nat
  vertex_type : Nat
  vertex_count : Nat
  vertices : List PolVertex
  material_info_count : Nat
  material_info : List PolMaterialInfo
  unknown2 : Nat
  unknown3 : Nat
  unknown4 : Nat
  triangle_count : Nat
  triangles : List PolTriangle
deriving DecidableEq

structure UnknownData where
  unknown : List Nat
  matrix : List Nat
  unknown2 : Nat
  str_len : Nat
  ddd_str : List Nat
deriving DecidableEq

structure GeomNodeDesc where
  unknown : List Nat
deriving DecidableEq

structure PolFile where
  magic : List Nat
  some_flag : Nat
  mesh_count : Nat
  geom_node_descs : List GeomNodeDesc
  unknown_count : Nat
  unknown_data : List UnknownData
  meshes : List PolMesh
deriving DecidableEq

/-- The standalone vertex-size calculator `calc_vertex_size`.  The source
takes the mask reinterpreted as an `i32`; we take the 32-bit pattern, so the
source's `t < 0` test is the test of bit 31 and `t & 0x7FFFFFFF` keeps the
same low 31 bits. -/
def calc_vertex_size (t : Nat) : Nat :=
  if t.testBit 31 then t &&& 0x7FFFFFFF
  else
    (if t &&& 1 != 0 then 12 else 0) +
    (if t &&& 2 != 0 then 12 else 0) +
    (if t &&& 4 != 0 then 4 else 0) +
    (if t &&& 8 != 0 then 4 else 0) +
    (if t &&& 0x10 != 0 then 8 else 0) +
    (if t &&& 0x20 != 0 then 8 else 0) +
    (if t &&& 0x40 != 0 then 8 else 0) +
    (if t &&& 0x80 != 0 then 8 else 0) +
    (if t &&& 0x100 != 0 then 16 else 0)

/-! Readers, one per loop or record of the source. -/

/-- Optional block read: `if vertex_type.has(c) { read n floats } else None`,
with the error propagated by `?`. -/
def optRead (b : Bool) (n : Nat) (s : Bytes) :
    Except PolError (Option (List Nat) × Bytes) :=
  if b then pbind (readWords n s) fun a r => .ok (some a, r)
  else .ok (none, s)

/-- Tail of one vertex record after the `unknown2` block: the remaining
optional blocks and the mandatory texture coordinate, in source order
(polloader.rs lines 201 to 264). -/
def readPolVertexRest (mask x y z : Nat) (u2 : Option (List Nat)) (s : Bytes) :
    Except PolError (PolVertex × Bytes) :=
  pbind (optRead (hasComp mask 0b100) 1 s) fun u4 s =>
  pbind (optRead (hasComp mask 0b1000) 1 s) fun u8 s =>
  pbind (readU32 s) fun tu s =>
  pbind (readU32 s) fun tv s =>
  pbind (optRead (hasComp mask 0b100000) 2 s) fun u20 s =>
  pbind (optRead (hasComp mask 0b1000000) 2 s) fun u40 s =>
  pbind (optRead (hasComp mask 0b10000000) 2 s) fun u80 s =>
  pbind (optRead (hasComp mask 0b100000000) 4 s) fun u100 s =>
  .ok (⟨⟨x, y, z⟩, u2, u4, u8, ⟨tu, tv⟩, u20, u40, u80, u100⟩, s)

/-- One vertex record, faithful to the source: the two mandatory-attribute
panics come first (inside the vertex loop, so they only fire when at least
one vertex is read), then the position, then the `unknown2` block whose read
failure the source discards (missing `?` at line 195). -/
def readPolVertex (mask : Nat) (s : Bytes) :
    Except PolError (PolVertex × Bytes) :=
  if ¬ hasComp mask 0b1 then .error .missingMandatoryAttribute
  else if ¬ hasComp mask 0b10000 then .error .missingMandatoryAttribute
  else
    pbind (readU32 s) fun x s =>
    pbind (readU32 s) fun y s =>
    pbind (readU32 s) fun z s =>
    let p := if hasComp mask 0b10 then
        (fun a => (some a.1, a.2)) (readWordsLossy 3 s)
      else (none, s)
    readPolVertexRest mask x y z p.1 p.2

/-- The vertex loop `for i in 0..vertex_count`. -/
def readVertices (mask : Nat) : Nat → Bytes →
    Except PolError (List PolVertex × Bytes)
  | 0, s => .ok ([], s)
  | n + 1, s =>
    pbind (readPolVertex mask s) fun v s1 =>
    pbind (readVertices mask n s1) fun vs s2 => .ok (v :: vs, s2)

/-- One light-map name: a fixed 64-byte field, truncated at the first zero
byte and checked as UTF-8; `String::from_utf8(...).unwrap()` panics on
invalid text, modelled as `invalidText`.  The value kept is the byte content
of the resulting string. -/
def readLightMapName (s : Bytes) : Except PolError (List Nat × Bytes) :=
  pbind (readBytes 64 s) fun name s1 =>
  if utf8Valid (name.takeWhile (· != 0)) then
    .ok (name.takeWhile (· != 0), s1)
  else .error .invalidText

/-- The light-map-name loop `for j in 0..light_map_count`. -/
def readLightMapNames : Nat → Bytes →
    Except PolError (List (List Nat) × Bytes)
  | 0, s => .ok ([], s)
  | n + 1, s =>
    pbind (readLightMapName s) fun v s1 =>
    pbind (readLightMapNames n s1) fun vs s2 => .ok (v :: vs, s2)

/-- One material-info record (polloader.rs lines 270 to 287). -/
def readMaterialInfo (s : Bytes) :
    Except PolError (PolMaterialInfo × Bytes) :=
  pbind (readU32 s) fun dw0 s =>
  pbind (readBytes 64 s) fun blob s =>
  pbind (readU32 s) fun w s =>
  pbind (readU32 s) fun lmc s =>
  pbind (readLightMapNames lmc s) fun names s =>
  .ok (⟨dw0, blob, clampF32 (decodeF32 w), lmc, names⟩, s)

/-- The material loop `for i in 0..material_info_count`. -/
def readMaterialInfos : Nat → Bytes →
    Except PolError (List PolMaterialInfo × Bytes)
  | 0, s => .ok ([], s)
  | n + 1, s =>
    pbind (readMaterialInfo s) fun m s1 =>
    pbind (readMaterialInfos n s1) fun ms s2 => .ok (m :: ms, s2)

/-- One triangle: three little-endian `u16` indices. -/
def readTriangle (s : Bytes) : Except PolError (PolTriangle × Bytes) :=
  pbind (readU16 s) fun i0 s =>
  pbind (readU16 s) fun i1 s =>
  pbind (readU16 s) fun i2 s =>
  .ok (⟨[i0, i1, i2]⟩, s)

/-- The triangle loop `for i in 0..triangle_count`. -/
def readTriangles : Nat → Bytes → Except PolError (List PolTriangle × Bytes)
  | 0, s => .ok ([], s)
  | n + 1, s =>
    pbind (readTriangle s) fun t s1 =>
    pbind (readTriangles n s1) fun ts s2 => .ok (t :: ts, s2)

/-- One mesh record, `read_pol_mesh`.  The source also computes
`calc_vertex_size(vertex_type as i32)` into an unused local `size`; being
dead it is omitted from the read path and kept as the standalone
`calc_vertex_size` above. -/
def readPolMesh (s : Bytes) : Except PolError (PolMesh × Bytes) :=
  pbind (readWords 3 s) fun amin s =>
  pbind (readWords 3 s) fun amax s =>
  pbind (readU32 s) fun vt s =>
  pbind (readU32 s) fun vc s =>
  pbind (readVertices vt vc s) fun vs s =>
  pbind (readU32 s) fun mic s =>
  pbind (readMaterialInfos mic s) fun ms s =>
  pbind (readU32 s) fun u2 s =>
  pbind (readU32 s) fun u3 s =>
  pbind (readU32 s) fun u4 s =>
  pbind (readU32 s) fun tc s =>
  pbind (readTriangles tc s) fun ts s =>
  .ok (⟨amin, amax, vt, vc, vs, mic, ms, u2, u3, u4, tc, ts⟩, s)

/-- The mesh loop `for i in 0..mesh_count`. -/
def readMeshes : Nat → Bytes → Except PolError (List PolMesh × Bytes)
  | 0, s => .ok ([], s)
  | n + 1, s =>
    pbind (readPolMesh s) fun m s1 =>
    pbind (readMeshes n s1) fun ms s2 => .ok (m :: ms, s2)

/-- One transform node (`UnknownData`): 32-byte blob, 16-float matrix,
auxiliary word, length-prefixed byte string. -/
def readUnknownData (s : Bytes) : Except PolError (UnknownData × Bytes) :=
  pbind (readBytes 32 s) fun u s =>
  pbind (readWords 16 s) fun mat s =>
  pbind (readU32 s) fun u2 s =>
  pbind (readU32 s) fun strLen s =>
  pbind (readBytes strLen s) fun ddd s =>
  .ok (⟨u, mat, u2, strLen, ddd⟩, s)

/-- The transform-node loop `for i in 0..unknown_count`. -/
def readUnknownDatas : Nat → Bytes →
    Except PolError (List UnknownData × Bytes)
  | 0, s => .ok ([], s)
  | n + 1, s =>
    pbind (readUnknownData s) fun d s1 =>
    pbind (readUnknownDatas n s1) fun ds s2 => .ok (d :: ds, s2)

/-- The conditional transform-node section (polloader.rs lines 128 to 151):
`unknown_count` starts at 0, is read only when `some_flag > 100`, and the
node loop runs only when the count is positive. -/
def readTransformSection (some_flag : Nat) (s : Bytes) :
    Except PolError ((Nat × List UnknownData) × Bytes) :=
  if 100 < some_flag then
    pbind (readU32 s) fun c s1 =>
    if 0 < c then
      pbind (readUnknownDatas c s1) fun ds s2 => .ok ((c, ds), s2)
    else .ok ((c, []), s1)
  else .ok ((0, []), s)

/-- The geometry-node-descriptor loop: `mesh_count` fixed 52-byte records. -/
def readGeomNodeDescs : Nat → Bytes →
    Except PolError (List GeomNodeDesc × Bytes)
  | 0, s => .ok ([], s)
  | n + 1, s =>
    pbind (readBytes 52 s) fun u s1 =>
    pbind (readGeomNodeDescs n s1) fun ds s2 => .ok (⟨u⟩ :: ds, s2)

/-- The fixed signature bytes, "POLY". -/
def SIG : Bytes := [0x50, 0x4f, 0x4c, 0x59]

/-- Everything after the 4-byte signature (on the success path the source's
`magic` equals the signature bytes, stored verbatim in the file record). -/
def pol_load_body (s : Bytes) : Except PolError PolFile :=
  pbind (readU32 s) fun some_flag s =>
  pbind (readU32 s) fun mesh_count s =>
  pbind (readGeomNodeDescs mesh_count s) fun descs s =>
  pbind (readTransformSection some_flag s) fun ud s =>
  pbind (readMeshes mesh_count s) fun meshes _ =>
  .ok ⟨SIG, some_flag, mesh_count, descs, ud.1, ud.2, meshes⟩

/-- The top-level decoder `pol_load_from_file`: reads the 4-byte tag, panics
(`invalidSignature`) unless it is "POLY", then decodes the rest.  The byte
source stands for the opened file's contents. -/
def pol_load_from_file (s : Bytes) : Except PolError PolFile :=
  pbind (readBytes 4 s) fun magic s1 =>
  if magic = SIG then pol_load_body s1 else .error .invalidSignature

/-! Spec-side decoder in which every primitive-read failure propagates
immediately (spec section 4.7, last line).  It is identical to the source
decoder except at the `unknown2` vertex block, whose read failure the source
discards; here it is propagated like every other read. -/

/-- One vertex with the `unknown2` read error propagated. -/
def readPolVertexStrict (mask : Nat) (s : Bytes) :
    Except PolError (PolVertex × Bytes) :=
  if ¬ hasComp mask 0b1 then .error .missingMandatoryAttribute
  else if ¬ hasComp mask 0b10000 then .error .missingMandatoryAttribute
  else
    pbind (readU32 s) fun x s =>
    pbind (readU32 s) fun y s =>
    pbind (readU32 s) fun z s =>
    pbind (optRead (hasComp mask 0b10) 3 s) fun u2 s =>
    readPolVertexRest mask x y z u2 s

/-- The vertex loop of the strict decoder. -/
def readVerticesStrict (mask : Nat) : Nat → Bytes →
    Except PolError (List PolVertex × Bytes)
  | 0, s => .ok ([], s)
  | n + 1, s =>
    pbind (readPolVertexStrict mask s) fun v s1 =>
    pbind (readVerticesStrict mask n s1) fun vs s2 => .ok (v :: vs, s2)

/-- One mesh of the strict decoder. -/
def readPolMeshStrict (s : Bytes) : Except PolError (PolMesh × Bytes) :=
  pbind (readWords 3 s) fun amin s =>
  pbind (readWords 3 s) fun amax s =>
  pbind (readU32 s) fun vt s =>
  pbind (readU32 s) fun vc s =>
  pbind (readVerticesStrict vt vc s) fun vs s =>
  pbind (readU32 s) fun mic s =>
  pbind (readMaterialInfos mic s) fun ms s =>
  pbind (readU32 s) fun u2 s =>
  pbind (readU32 s) fun u3 s =>
  pbind (readU32 s) fun u4 s =>
  pbind (readU32 s) fun tc s =>
  pbind (readTriangles tc s) fun ts s =>
  .ok (⟨amin, amax, vt, vc, vs, mic, ms, u2, u3, u4, tc, ts⟩, s)

/-- The mesh loop of the strict decoder. -/
def readMeshesStrict : Nat → Bytes → Except PolError (List PolMesh × Bytes)
  | 0, s => .ok ([], s)
  | n + 1, s =>
    pbind (readPolMeshStrict s) fun m s1 =>
    pbind (readMeshesStrict n s1) fun ms s2 => .ok (m :: ms, s2)

/-- The post-signature part of the strict decoder. -/
def pol_load_body_strict (s : Bytes) : Except PolError PolFile :=
  pbind (readU32 s) fun some_flag s =>
  pbind (readU32 s) fun mesh_count s =>
  pbind (readGeomNodeDescs mesh_count s) fun descs s =>
  pbind (readTransformSection some_flag s) fun ud s =>
  pbind (readMeshesStrict mesh_count s) fun meshes _ =>
  .ok ⟨SIG, some_flag, mesh_count, descs, ud.1, ud.2, meshes⟩

/-- The strict decoder, top level. -/
def pol_load_strict (s : Bytes) : Except PolError PolFile :=
  pbind (readBytes 4 s) fun magic s1 =>
  if magic = SIG then pol_load_body_strict s1 else .error .invalidSignature

/-! Spec-side byte-span skeleton: a size-only walk over the layout (spec
section 6) that checks, at every declared count, that the implied byte span
fits within the remaining source, reading nothing but the count and mask
fields it needs.  The per-vertex span follows the record the decoder
actually reads: 3-float position; 3-float, 1-float, 1-float optional blocks
on mask bits 0b10, 0b100, 0b1000; 2-float texture coordinate; 2-float
optional blocks on bits 0b100000, 0b1000000, 0b10000000; 4-float optional
block on bit 0b100000000. -/

/-- Skips `n` bytes, failing with `truncated` when they are not there. -/
def skipE (n : Nat) (s : Bytes) : Except PolError Bytes :=
  if n ≤ s.length then .ok (s.drop n) else .error .truncated

/-- Byte span of the part of one vertex record after the `unknown2` block. -/
def vertexRestSpan (mask : Nat) : Nat :=
  (if hasComp mask 0b100 then 4 else 0) +
  (if hasComp mask 0b1000 then 4 else 0) +
  8 +
  (if hasComp mask 0b100000 then 8 else 0) +
  (if hasComp mask 0b1000000 then 8 else 0) +
  (if hasComp mask 0b10000000 then 8 else 0) +
  (if hasComp mask 0b100000000 then 16 else 0)

/-- Byte span of one vertex record under a format mask. -/
def vertexSpanSpec (mask : Nat) : Nat :=
  12 + (if hasComp mask 0b10 then 12 else 0) + vertexRestSpan mask

/-- Span walk over one material-info record. -/
def spanMaterial (s : Bytes) : Except PolError Bytes :=
  sbind (skipE 4 s) fun s =>
  sbind (skipE 64 s) fun s =>
  sbind (skipE 4 s) fun s =>
  pbind (readU32 s) fun lm s =>
  skipE (64 * lm) s

/-- Span walk over a sequence of material-info records. -/
def spanMaterials : Nat → Bytes → Except PolError Bytes
  | 0, s => .ok s
  | n + 1, s => sbind (spanMaterial s) (spanMaterials n)

/-- Span walk over one transform node. -/
def spanTransformNode (s : Bytes) : Except PolError Bytes :=
  sbind (skipE 32 s) fun s =>
  sbind (skipE 64 s) fun s =>
  sbind (skipE 4 s) fun s =>
  pbind (readU32 s) fun strLen s =>
  skipE strLen s

/-- Span walk over a sequence of transform nodes. -/
def spanTransformNodes : Nat → Bytes → Except PolError Bytes
  | 0, s => .ok s
  | n + 1, s => sbind (spanTransformNode s) (spanTransformNodes n)

/-- Span walk over one mesh record. -/
def spanMesh (s : Bytes) : Except PolError Bytes :=
  sbind (skipE 12 s) fun s =>
  sbind (skipE 12 s) fun s =>
  pbind (readU32 s) fun mask s =>
  pbind (readU32 s) fun vc s =>
  sbind (skipE (vc * vertexSpanSpec mask) s) fun s =>
  pbind (readU32 s) fun mc s =>
  sbind (spanMaterials mc s) fun s =>
  sbind (skipE 12 s) fun s =>
  pbind (readU32 s) fun tc s =>
  skipE (6 * tc) s

/-- Span walk over a sequence of mesh records. -/
def spanMeshes : Nat → Bytes → Except PolError Bytes
  | 0, s => .ok s
  | n + 1, s => sbind (spanMesh s) (spanMeshes n)

/-- Span walk over the conditional transform-node section. -/
def spanTransformSection (flag : Nat) (s : Bytes) : Except PolError Bytes :=
  if 100 < flag then
    pbind (readU32 s) fun c s => spanTransformNodes c s
  else .ok s

/-- Span walk over everything after the signature. -/
def spanBody (s : Bytes) : Except PolError Bytes :=
  pbind (readU32 s) fun flag s =>
  pbind (readU32 s) fun mc s =>
  sbind (skipE (52 * mc) s) fun s =>
  sbind (spanTransformSection flag s) fun s =>
  spanMeshes mc s

/-- Span walk over a whole document. -/
def spanDoc (s : Bytes) : Except PolError Bytes :=
  sbind (skipE 4 s) spanBody

/-- Whether every declared count's implied byte span fits in the source. -/
def spanFits (s : Bytes) : Bool := (spanDoc s).isOk

/-! Concrete inputs used by the witnesses. -/

/-- A minimal valid file: "POLY", format flag 1, mesh count 0. -/
def W1 : Bytes := [0x50, 0x4f, 0x4c, 0x59, 1, 0, 0, 0, 0, 0, 0, 0]

/-- The document decoded from `W1`. -/
def F1 : PolFile := ⟨SIG, 1, 0, [], 0, [], []⟩

/-- A material-info byte record whose stored float is 200.0f32
(pattern 0x43480000) and which carries one light-map name "A". -/
def matBytes7 : Bytes :=
  [7, 0, 0, 0] ++ List.replicate 64 0 ++ [0x00, 0x00, 0x48, 0x43] ++
  [1, 0, 0, 0] ++ (0x41 :: List.replicate 63 0)

/-- A mesh byte record with no vertices, one material (`matBytes7`), and no
triangles. -/
def meshBytes7 : Bytes :=
  List.replicate 24 0 ++ [0, 0, 0, 0] ++ [0, 0, 0, 0] ++ [1, 0, 0, 0] ++
  matBytes7 ++ List.replicate 12 0 ++ [0, 0, 0, 0]

/-- A valid file with one mesh holding one material whose stored float is
200.0. -/
def W7 : Bytes :=
  [0x50, 0x4f, 0x4c, 0x59, 1, 0, 0, 0, 1, 0, 0, 0] ++
  List.replicate 52 0 ++ meshBytes7

/-- The material decoded from `matBytes7`: the float is clamped to 128. -/
def M7 : PolMaterialInfo := ⟨7, List.replicate 64 0, .fin 128, 1, [[0x41]]⟩

/-- The mesh decoded from `meshBytes7`. -/
def Mesh7 : PolMesh := ⟨[0, 0, 0], [0, 0, 0], 0, 0, [], 1, [M7], 0, 0, 0, 0, []⟩

/-- The document decoded from `W7`. -/
def F7 : PolFile := ⟨SIG, 1, 1, [⟨List.replicate 52 0⟩], 0, [], [Mesh7]⟩

/-- An 80-byte vertex record for the all-blocks mask 0x1FF. -/
def W2 : Bytes := List.replicate 80 0

/-- The vertex decoded from `W2` under mask 0x1FF. -/
def V2 : PolVertex :=
  ⟨⟨0, 0, 0⟩, some [0, 0, 0], some [0], some [0], ⟨0, 0⟩, some [0, 0],
    some [0, 0], some [0, 0], some [0, 0, 0, 0]⟩

/-! Helper lemmas about the sequencing combinators and primitive reads. -/

@[simp] theorem pbind_ok {α β : Type} (a : α) (s : Bytes)
    (k : α → Bytes → Except PolError β) : pbind (.ok (a, s)) k = k a s := rfl

@[simp] theorem pbind_error {α β : Type} (e : PolError)
    (k : α → Bytes → Except PolError β) : pbind (.error e) k = .error e := rfl

@[simp] theorem sbind_ok {β : Type} (s : Bytes)
    (k : Bytes → Except PolError β) : sbind (.ok s) k = k s := rfl

@[simp] theorem sbind_error {β : Type} (e : PolError)
    (k : Bytes → Except PolError β) : sbind (.error e) k = .error e := rfl

theorem pbind_eq_ok {α β : Type} {m : Except PolError (α × Bytes)}
    {k : α → Bytes → Except PolError β} {y : β} :
    pbind m k = .ok y ↔ ∃ a s, m = .ok (a, s) ∧ k a s = .ok y := by
  cases m with
  | error e => simp [pbind]
  | ok p =>
      cases p with
      | mk a s =>
          simp only [pbind]
          constructor
          · intro h; exact ⟨a, s, rfl, h⟩
          · rintro ⟨a1, s1, hp, hk⟩
            cases hp; exact hk

theorem pbind_eq_error {α β : Type} {m : Except PolError (α × Bytes)}
    {k : α → Bytes → Except PolError β} {e : PolError} :
    pbind m k = .error e ↔
      m = .error e ∨ ∃ a s, m = .ok (a, s) ∧ k a s = .error e := by
  cases m with
  | error e2 => simp [pbind]
  | ok p =>
      cases p with
      | mk a s =>
          simp only [pbind]
          constructor
          · intro h; exact Or.inr ⟨a, s, rfl, h⟩
          · rintro (hm | ⟨a1, s1, hp, hk⟩)
            · exact absurd hm (by simp)
            · cases hp; exact hk

theorem sbind_eq_ok {β : Type} {m : Except PolError Bytes}
    {k : Bytes → Except PolError β} {y : β} :
    sbind m k = .ok y ↔ ∃ s, m = .ok s ∧ k s = .ok y := by
  cases m with
  | error e => simp [sbind]
  | ok s =>
      simp only [sbind]
      constructor
      · intro h; exact ⟨s, rfl, h⟩
      · rintro ⟨s1, hp, hk⟩; cases hp; exact hk

theorem sbind_eq_error {β : Type} {m : Except PolError Bytes}
    {k : Bytes → Except PolError β} {e : PolError} :
    sbind m k = .error e ↔
      m = .error e ∨ ∃ s, m = .ok s ∧ k s = .error e := by
  cases m with
  | error e2 => simp [sbind]
  | ok s =>
      simp only [sbind]
      constructor
      · intro h; exact Or.inr ⟨s, rfl, h⟩
      · rintro (hm | ⟨s1, hp, hk⟩)
        · exact absurd hm (by simp)
        · cases hp; exact hk

theorem skipE_ok_iff {n : Nat} {s r : Bytes} :
    skipE n s = .ok r ↔ n ≤ s.length ∧ r = s.drop n := by
  unfold skipE
  split
  · constructor
    · intro h; exact ⟨by assumption, (Except.ok.inj h).symm⟩
    · rintro ⟨h1, rfl⟩; rfl
  · constructor
    · intro h; exact absurd h (by simp)
    · rintro ⟨h1, _⟩; omega

@[simp] theorem skipE_zero (s : Bytes) : skipE 0 s = .ok s := by
  simp [skipE]

theorem skipE_add (a b : Nat) (s : Bytes) :
    skipE (a + b) s = sbind (skipE a s) (skipE b) := by
  by_cases h1 : a ≤ s.length
  · have ha : skipE a s = .ok (s.drop a) := by simp [skipE, h1]
    rw [ha, sbind_ok]
    by_cases h2 : a + b ≤ s.length
    · have h3 : b ≤ (s.drop a).length := by simp; omega
      simp only [skipE, if_pos h2, if_pos h3]
      simp [List.drop_drop, Nat.add_comm]
    · have h3 : ¬ b ≤ (s.drop a).length := by simp; omega
      simp only [skipE, if_neg h2, if_neg h3]
  · have ha : skipE a s = .error .truncated := by simp [skipE, h1]
    rw [ha, sbind_error]
    have h2 : ¬ a + b ≤ s.length := by omega
    simp [skipE, h2]

theorem skipE_comp {a b : Nat} {s s1 r : Bytes} (h1 : skipE a s = .ok s1)
    (h2 : skipE b s1 = .ok r) : skipE (a + b) s = .ok r := by
  rw [skipE_add, h1, sbind_ok, h2]

theorem skipE_split {a b : Nat} {s r : Bytes}
    (h : skipE (a + b) s = .ok r) :
    ∃ mid, skipE a s = .ok mid ∧ skipE b mid = .ok r := by
  rw [skipE_add] at h
  exact sbind_eq_ok.mp h

theorem readU32_ok_skipE {s : Bytes} {w : Nat} {r : Bytes}
    (h : readU32 s = .ok (w, r)) : skipE 4 s = .ok r := by
  match s with
  | [] | [_] | [_, _] | [_, _, _] => simp [readU32] at h
  | b0 :: b1 :: b2 :: b3 :: rest =>
      simp only [readU32, Except.ok.injEq, Prod.mk.injEq] at h
      rw [skipE, if_pos (by simp)]
      simp [h.2]

theorem skipE_four_readU32 {s r : Bytes} (h : skipE 4 s = .ok r) :
    ∃ w, readU32 s = .ok (w, r) := by
  match s with
  | [] | [_] | [_, _] | [_, _, _] =>
      rcases skipE_ok_iff.mp h with ⟨hl, _⟩
      simp at hl
  | b0 :: b1 :: b2 :: b3 :: rest =>
      rcases skipE_ok_iff.mp h with ⟨hl, hr⟩
      exact ⟨le32 b0 b1 b2 b3, by simp [readU32, hr]⟩

theorem readU16_ok_skipE {s : Bytes} {w : Nat} {r : Bytes}
    (h : readU16 s = .ok (w, r)) : skipE 2 s = .ok r := by
  match s with
  | [] | [_] => simp [readU16] at h
  | b0 :: b1 :: rest =>
      simp only [readU16, Except.ok.injEq, Prod.mk.injEq] at h
      rw [skipE, if_pos (by simp)]
      simp [h.2]

theorem skipE_two_readU16 {s r : Bytes} (h : skipE 2 s = .ok r) :
    ∃ w, readU16 s = .ok (w, r) := by
  match s with
  | [] | [_] =>
      rcases skipE_ok_iff.mp h with ⟨hl, _⟩
      simp at hl
  | b0 :: b1 :: rest =>
      rcases skipE_ok_iff.mp h with ⟨hl, hr⟩
      exact ⟨le16 b0 b1, by simp [readU16, hr]⟩

theorem readBytes_ok_skipE {n : Nat} {s v r : Bytes}
    (h : readBytes n s = .ok (v, r)) : skipE n s = .ok r := by
  unfold readBytes at h
  split at h
  · simp only [Except.ok.injEq, Prod.mk.injEq] at h
    rw [skipE, if_pos (by assumption)]
    simp [h.2]
  · exact absurd h (by simp)

theorem skipE_readBytes {n : Nat} {s r : Bytes} (h : skipE n s = .ok r) :
    readBytes n s = .ok (s.take n, r) := by
  rcases skipE_ok_iff.mp h with ⟨hl, rfl⟩
  simp [readBytes, hl]

theorem readU32_error {s : Bytes} {e : PolError}
    (h : readU32 s = .error e) : e = .truncated := by
  unfold readU32 at h
  split at h
  · exact absurd h (by simp)
  · exact (Except.error.inj h).symm

theorem readWords_ok_skipE {n : Nat} {s : Bytes} {ws : List Nat} {r : Bytes}
    (h : readWords n s = .ok (ws, r)) : skipE (4 * n) s = .ok r := by
  induction n generalizing s ws r with
  | zero =>
      simp only [readWords, Except.ok.injEq, Prod.mk.injEq] at h
      simp [h.2]
  | succ n ih =>
      simp only [readWords] at h
      rcases pbind_eq_ok.mp h with ⟨w, s1, hw, h⟩
      rcases pbind_eq_ok.mp h with ⟨ws2, s2, hws, h2⟩
      simp only [Except.ok.injEq, Prod.mk.injEq] at h2
      have heq : 4 * (n + 1) = 4 + 4 * n := by ring
      rw [heq]
      exact skipE_comp (readU32_ok_skipE hw) (h2.2 ▸ ih hws)

theorem skipE_readWords {n : Nat} {s r : Bytes}
    (h : skipE (4 * n) s = .ok r) : ∃ ws, readWords n s = .ok (ws, r) := by
  induction n generalizing s r with
  | zero =>
      simp at h
      exact ⟨[], by simp [readWords, h]⟩
  | succ n ih =>
      have heq : 4 * (n + 1) = 4 + 4 * n := by ring
      rw [heq] at h
      rcases skipE_split h with ⟨mid, h1, h2⟩
      rcases skipE_four_readU32 h1 with ⟨w, hw⟩
      rcases ih h2 with ⟨ws, hws⟩
      exact ⟨w :: ws, by simp [readWords, hw, hws]⟩

theorem readWords_error {n : Nat} {s : Bytes} {e : PolError}
    (h : readWords n s = .error e) : e = .truncated := by
  induction n generalizing s with
  | zero => simp [readWords] at h
  | succ n ih =>
      simp only [readWords] at h
      rcases pbind_eq_error.mp h with hu | ⟨w, s1, hw, h⟩
      · exact readU32_error hu
      · rcases pbind_eq_error.mp h with hws | ⟨ws, s2, hws, h2⟩
        · exact ih hws
        · exact absurd h2 (by simp)

theorem optRead_ok_skipE {b : Bool} {n : Nat} {s : Bytes}
    {o : Option (List Nat)} {r : Bytes} (h : optRead b n s = .ok (o, r)) :
    skipE (if b then 4 * n else 0) s = .ok r := by
  cases b with
  | false =>
      simp only [optRead, Bool.false_eq_true, if_false, Except.ok.injEq,
        Prod.mk.injEq] at h ⊢
      simp [h.2]
  | true =>
      simp only [optRead, if_true] at h ⊢
      rcases pbind_eq_ok.mp h with ⟨ws, s1, hw, h1⟩
      simp only [Except.ok.injEq, Prod.mk.injEq] at h1
      exact h1.2 ▸ readWords_ok_skipE hw

theorem skipE_optRead {b : Bool} {n : Nat} {s r : Bytes}
    (h : skipE (if b then 4 * n else 0) s = .ok r) :
    ∃ o, optRead b n s = .ok (o, r) := by
  cases b with
  | false =>
      simp only [Bool.false_eq_true, if_false, skipE_zero,
        Except.ok.injEq] at h
      exact ⟨none, by simp [optRead, h]⟩
  | true =>
      simp only [if_true] at h
      rcases skipE_readWords h with ⟨ws, hw⟩
      exact ⟨some ws, by simp [optRead, hw]⟩

theorem optRead_isSome {b : Bool} {n : Nat} {s : Bytes}
    {o : Option (List Nat)} {r : Bytes} (h : optRead b n s = .ok (o, r)) :
    o.isSome = b := by
  cases b with
  | false =>
      simp only [optRead, Bool.false_eq_true, if_false, Except.ok.injEq,
        Prod.mk.injEq] at h
      rw [← h.1]; rfl
  | true =>
      simp only [optRead, if_true] at h
      rcases pbind_eq_ok.mp h with ⟨ws, s1, hw, h1⟩
      simp only [Except.ok.injEq, Prod.mk.injEq] at h1
      rw [← h1.1]; rfl

theorem pbind_congr {α β : Type} {m : Except PolError (α × Bytes)}
    {k k2 : α → Bytes → Except PolError β}
    (h : ∀ a s, k a s = k2 a s) : pbind m k = pbind m k2 := by
  cases m with
  | error e => rfl
  | ok p => cases p with | mk a s => exact h a s

/-! Vertex-level lemmas. -/

theorem readPolVertexRest_nil (mask x y z : Nat) (u2 : Option (List Nat)) :
    readPolVertexRest mask x y z u2 [] = .error .truncated := by
  by_cases h4 : hasComp mask 0b100 = true <;>
    by_cases h8 : hasComp mask 0b1000 = true <;>
      simp [readPolVertexRest, optRead, readWords, readU32, h4, h8]

theorem readPolVertexRest_ok_skipE {mask x y z : Nat}
    {u2 : Option (List Nat)} {s : Bytes} {v : PolVertex} {r : Bytes}
    (h : readPolVertexRest mask x y z u2 s = .ok (v, r)) :
    skipE (vertexRestSpan mask) s = .ok r := by
  unfold readPolVertexRest at h
  rcases pbind_eq_ok.mp h with ⟨u4, s1, h4, h⟩
  rcases pbind_eq_ok.mp h with ⟨u8, s2, h8, h⟩
  rcases pbind_eq_ok.mp h with ⟨tu, s3, hu, h⟩
  rcases pbind_eq_ok.mp h with ⟨tv, s4, hv, h⟩
  rcases pbind_eq_ok.mp h with ⟨u20, s5, h20, h⟩
  rcases pbind_eq_ok.mp h with ⟨u40, s6, h40, h⟩
  rcases pbind_eq_ok.mp h with ⟨u80, s7, h80, h⟩
  rcases pbind_eq_ok.mp h with ⟨u100, s8, h100, h⟩
  simp only [Except.ok.injEq, Prod.mk.injEq] at h
  have htex : skipE 8 s2 = .ok s4 :=
    skipE_comp (readU32_ok_skipE hu) (readU32_ok_skipE hv)
  have hi4 : skipE (if hasComp mask 0b100 then 4 else 0) s = .ok s1 :=
    optRead_ok_skipE h4
  have hi8 : skipE (if hasComp mask 0b1000 then 4 else 0) s1 = .ok s2 :=
    optRead_ok_skipE h8
  have hi20 : skipE (if hasComp mask 0b100000 then 8 else 0) s4 = .ok s5 :=
    optRead_ok_skipE h20
  have hi40 : skipE (if hasComp mask 0b1000000 then 8 else 0) s5 = .ok s6 :=
    optRead_ok_skipE h40
  have hi80 : skipE (if hasComp mask 0b10000000 then 8 else 0) s6 = .ok s7 :=
    optRead_ok_skipE h80
  have hi100 : skipE (if hasComp mask 0b100000000 then 16 else 0) s7 =
      .ok s8 := optRead_ok_skipE h100
  unfold vertexRestSpan
  exact h.2 ▸ skipE_comp (skipE_comp (skipE_comp (skipE_comp
    (skipE_comp (skipE_comp hi4 hi8) htex) hi20) hi40) hi80) hi100

theorem skipE_readPolVertexRest {mask x y z : Nat} {u2 : Option (List Nat)}
    {s r : Bytes} (h : skipE (vertexRestSpan mask) s = .ok r) :
    ∃ v, readPolVertexRest mask x y z u2 s = .ok (v, r) := by
  unfold vertexRestSpan at h
  rcases skipE_split h with ⟨m6, h6, hi100⟩
  rcases skipE_split h6 with ⟨m5, h5, hi80⟩
  rcases skipE_split h5 with ⟨m4, h4c, hi40⟩
  rcases skipE_split h4c with ⟨m3, h3c, hi20⟩
  rcases skipE_split h3c with ⟨m2, h2c, htex⟩
  rcases skipE_split h2c with ⟨m1, hi4, hi8⟩
  have htex8 : skipE (4 + 4) m2 = .ok m3 := htex
  rcases skipE_split htex8 with ⟨mt, htu, htv⟩
  rcases skipE_four_readU32 htu with ⟨tu, htur⟩
  rcases skipE_four_readU32 htv with ⟨tv, htvr⟩
  have hi4m : skipE (if hasComp mask 0b100 then 4 * 1 else 0) s = .ok m1 :=
    hi4
  have hi8m : skipE (if hasComp mask 0b1000 then 4 * 1 else 0) m1 =
      .ok m2 := hi8
  have hi20m : skipE (if hasComp mask 0b100000 then 4 * 2 else 0) m3 =
      .ok m4 := hi20
  have hi40m : skipE (if hasComp mask 0b1000000 then 4 * 2 else 0) m4 =
      .ok m5 := hi40
  have hi80m : skipE (if hasComp mask 0b10000000 then 4 * 2 else 0) m5 =
      .ok m6 := hi80
  have hi100m : skipE (if hasComp mask 0b100000000 then 4 * 4 else 0) m6 =
      .ok r := hi100
  rcases skipE_optRead hi4m with ⟨o4, ho4⟩
  rcases skipE_optRead hi8m with ⟨o8, ho8⟩
  rcases skipE_optRead hi20m with ⟨o20, ho20⟩
  rcases skipE_optRead hi40m with ⟨o40, ho40⟩
  rcases skipE_optRead hi80m with ⟨o80, ho80⟩
  rcases skipE_optRead hi100m with ⟨o100, ho100⟩
  refine ⟨⟨⟨x, y, z⟩, u2, o4, o8, ⟨tu, tv⟩, o20, o40, o80, o100⟩, ?_⟩
  simp [readPolVertexRest, ho4, ho8, htur, htvr, ho20, ho40, ho80, ho100]

theorem readPolVertex_ok_skipE {mask : Nat} {s : Bytes} {v : PolVertex}
    {r : Bytes} (h : readPolVertex mask s = .ok (v, r)) :
    skipE (vertexSpanSpec mask) s = .ok r := by
  unfold readPolVertex at h
  by_cases h1 : hasComp mask 0b1 = true
  case neg => simp [h1] at h
  by_cases h10 : hasComp mask 0b10000 = true
  case neg => simp [h1, h10] at h
  simp only [h1, h10, not_true_eq_false, if_false, ite_false] at h
  rcases pbind_eq_ok.mp h with ⟨x, s1, hx, h⟩
  rcases pbind_eq_ok.mp h with ⟨y, s2, hy, h⟩
  rcases pbind_eq_ok.mp h with ⟨z, s3, hz, h⟩
  have h12 : skipE 12 s = .ok s3 :=
    skipE_comp (skipE_comp (readU32_ok_skipE hx) (readU32_ok_skipE hy))
      (readU32_ok_skipE hz)
  by_cases hb2 : hasComp mask 0b10 = true
  · simp only [hb2, if_true] at h
    cases hw : readWords 3 s3 with
    | error e =>
        simp only [readWordsLossy, hw] at h
        rw [readPolVertexRest_nil] at h
        exact absurd h (by simp)
    | ok p =>
        obtain ⟨ws, s4⟩ := p
        simp only [readWordsLossy, hw] at h
        have hrest := readPolVertexRest_ok_skipE h
        have hmid : skipE 12 s3 = .ok s4 := readWords_ok_skipE hw
        simp only [vertexSpanSpec, hb2, if_true]
        exact skipE_comp (skipE_comp h12 hmid) hrest
  · simp only [hb2, if_false] at h
    have hrest := readPolVertexRest_ok_skipE h
    simp only [vertexSpanSpec, hb2, if_false]
    have hmid : skipE 0 s3 = .ok s3 := skipE_zero s3
    exact skipE_comp (skipE_comp h12 hmid) hrest

theorem skipE_readPolVertex {mask : Nat} {s r : Bytes}
    (h1 : hasComp mask 0b1 = true) (h10 : hasComp mask 0b10000 = true)
    (h : skipE (vertexSpanSpec mask) s = .ok r) :
    ∃ v, readPolVertex mask s = .ok (v, r) := by
  unfold vertexSpanSpec at h
  rcases skipE_split h with ⟨m2, h2c, hrest⟩
  rcases skipE_split h2c with ⟨m1, h12, hopt2⟩
  have h12c : skipE (4 + 4 + 4) s = .ok m1 := h12
  rcases skipE_split h12c with ⟨ma, hxy, hz⟩
  rcases skipE_split hxy with ⟨mb, hx, hy⟩
  rcases skipE_four_readU32 hx with ⟨x, hxr⟩
  rcases skipE_four_readU32 hy with ⟨y, hyr⟩
  rcases skipE_four_readU32 hz with ⟨z, hzr⟩
  by_cases hb2 : hasComp mask 0b10 = true
  · have hm : skipE (4 * 3) m1 = .ok m2 := by
      rw [if_pos hb2] at hopt2; exact hopt2
    rcases skipE_readWords hm with ⟨ws, hws⟩
    rcases @skipE_readPolVertexRest mask x y z (some ws) m2 r hrest with
      ⟨v, hv⟩
    refine ⟨v, ?_⟩
    simp [readPolVertex, h1, h10, hxr, hyr, hzr, hb2, readWordsLossy, hws,
      hv]
  · have hm : skipE 0 m1 = .ok m2 := by
      rw [if_neg hb2] at hopt2; exact hopt2
    have hm12 : m1 = m2 := by simpa using hm
    subst hm12
    rcases @skipE_readPolVertexRest mask x y z none m1 r hrest with ⟨v, hv⟩
    refine ⟨v, ?_⟩
    simp [readPolVertex, h1, h10, hxr, hyr, hzr, hb2, hv]

theorem readPolVertex_eq_strict (mask : Nat) (s : Bytes) :
    readPolVertex mask s = readPolVertexStrict mask s := by
  unfold readPolVertex readPolVertexStrict
  by_cases h1 : hasComp mask 0b1 = true
  case neg => simp [h1]
  by_cases h10 : hasComp mask 0b10000 = true
  case neg => simp [h1, h10]
  simp only [h1, h10, not_true_eq_false, if_false, ite_false]
  apply pbind_congr; intro x sx
  apply pbind_congr; intro y sy
  apply pbind_congr; intro z sz
  by_cases hb2 : hasComp mask 0b10 = true
  · simp only [hb2, if_true, optRead]
    cases hw : readWords 3 sz with
    | error e =>
        simp only [readWordsLossy, hw, pbind_error]
        rw [readPolVertexRest_nil, readWords_error hw]
    | ok p =>
        obtain ⟨ws, s4⟩ := p
        simp [readWordsLossy, hw]
  · simp [hb2, optRead]

/-! Vertex-loop lemmas. -/

theorem readVertices_ok_skipE {mask n : Nat} {s : Bytes}
    {vs : List PolVertex} {r : Bytes}
    (h : readVertices mask n s = .ok (vs, r)) :
    skipE (n * vertexSpanSpec mask) s = .ok r := by
  induction n generalizing s vs r with
  | zero =>
      simp only [readVertices, Except.ok.injEq, Prod.mk.injEq] at h
      simp [h.2]
  | succ n ih =>
      simp only [readVertices] at h
      rcases pbind_eq_ok.mp h with ⟨v, s1, hv, h⟩
      rcases pbind_eq_ok.mp h with ⟨vs2, s2, hvs, h2⟩
      simp only [Except.ok.injEq, Prod.mk.injEq] at h2
      have heq : (n + 1) * vertexSpanSpec mask =
          vertexSpanSpec mask + n * vertexSpanSpec mask := by ring
      rw [heq]
      exact skipE_comp (readPolVertex_ok_skipE hv) (h2.2 ▸ ih hvs)

theorem skipE_readVertices {mask n : Nat} {s r : Bytes}
    (h1 : hasComp mask 0b1 = true) (h10 : hasComp mask 0b10000 = true)
    (h : skipE (n * vertexSpanSpec mask) s = .ok r) :
    ∃ vs, readVertices mask n s = .ok (vs, r) := by
  induction n generalizing s r with
  | zero =>
      simp at h
      exact ⟨[], by simp [readVertices, h]⟩
  | succ n ih =>
      have heq : (n + 1) * vertexSpanSpec mask =
          vertexSpanSpec mask + n * vertexSpanSpec mask := by ring
      rw [heq] at h
      rcases skipE_split h with ⟨mid, hv, hvs⟩
      rcases skipE_readPolVertex h1 h10 hv with ⟨v, hvr⟩
      rcases ih hvs with ⟨vs, hvsr⟩
      exact ⟨v :: vs, by simp [readVertices, hvr, hvsr]⟩

theorem readVertices_length {mask n : Nat} {s : Bytes}
    {vs : List PolVertex} {r : Bytes}
    (h : readVertices mask n s = .ok (vs, r)) : vs.length = n := by
  induction n generalizing s vs r with
  | zero =>
      simp only [readVertices, Except.ok.injEq, Prod.mk.injEq] at h
      simp [← h.1]
  | succ n ih =>
      simp only [readVertices] at h
      rcases pbind_eq_ok.mp h with ⟨v, s1, hv, h⟩
      rcases pbind_eq_ok.mp h with ⟨vs2, s2, hvs, h2⟩
      simp only [Except.ok.injEq, Prod.mk.injEq] at h2
      have := ih hvs
      rw [← h2.1]
      simp [this]

theorem readVertices_missing {mask n : Nat} {s : Bytes}
    (hbit : hasComp mask 0b1 = false ∨ hasComp mask 0b10000 = false)
    (hn : 0 < n) :
    readVertices mask n s = .error .missingMandatoryAttribute := by
  cases n with
  | zero => omega
  | succ n =>
      have hv : readPolVertex mask s = .error .missingMandatoryAttribute := by
        rcases hbit with hb | hb <;> simp [readPolVertex, hb]
      simp [readVertices, hv]

theorem readVertices_eq_strict (mask : Nat) (n : Nat) (s : Bytes) :
    readVertices mask n s = readVerticesStrict mask n s := by
  induction n generalizing s with
  | zero => rfl
  | succ n ih =>
      simp only [readVertices, readVerticesStrict, readPolVertex_eq_strict]
      apply pbind_congr; intro v s1
      rw [ih]

/-! Light-map-name and material lemmas. -/

theorem readLightMapName_ok_skipE {s : Bytes} {t : List Nat} {r : Bytes}
    (h : readLightMapName s = .ok (t, r)) : skipE 64 s = .ok r := by
  unfold readLightMapName at h
  rcases pbind_eq_ok.mp h with ⟨name, s1, hn, h⟩
  split at h
  · simp only [Except.ok.injEq, Prod.mk.injEq] at h
    exact h.2 ▸ readBytes_ok_skipE hn
  · exact absurd h (by simp)

theorem skipE_readLightMapName {s r : Bytes} (h : skipE 64 s = .ok r) :
    (∃ t, readLightMapName s = .ok (t, r)) ∨
      readLightMapName s = .error .invalidText := by
  have hb := skipE_readBytes h
  by_cases hv : utf8Valid ((s.take 64).takeWhile (· != 0)) = true
  · exact Or.inl ⟨(s.take 64).takeWhile (· != 0),
      by simp [readLightMapName, hb, hv]⟩
  · right; simp [readLightMapName, hb, hv]

theorem readLightMapNames_ok_skipE {n : Nat} {s : Bytes}
    {l : List (List Nat)} {r : Bytes}
    (h : readLightMapNames n s = .ok (l, r)) : skipE (64 * n) s = .ok r := by
  induction n generalizing s l r with
  | zero =>
      simp only [readLightMapNames, Except.ok.injEq, Prod.mk.injEq] at h
      simp [h.2]
  | succ n ih =>
      simp only [readLightMapNames] at h
      rcases pbind_eq_ok.mp h with ⟨t, s1, ht, h⟩
      rcases pbind_eq_ok.mp h with ⟨ts, s2, hts, h2⟩
      simp only [Except.ok.injEq, Prod.mk.injEq] at h2
      have heq : 64 * (n + 1) = 64 + 64 * n := by ring
      rw [heq]
      exact skipE_comp (readLightMapName_ok_skipE ht) (h2.2 ▸ ih hts)

theorem skipE_readLightMapNames {n : Nat} {s r : Bytes}
    (h : skipE (64 * n) s = .ok r) :
    (∃ l, readLightMapNames n s = .ok (l, r)) ∨
      readLightMapNames n s = .error .invalidText := by
  induction n generalizing s r with
  | zero =>
      simp at h
      exact Or.inl ⟨[], by simp [readLightMapNames, h]⟩
  | succ n ih =>
      have heq : 64 * (n + 1) = 64 + 64 * n := by ring
      rw [heq] at h
      rcases skipE_split h with ⟨mid, h1, h2⟩
      rcases skipE_readLightMapName h1 with ⟨t, ht⟩ | ht
      · rcases ih h2 with ⟨l, hl⟩ | hl
        · exact Or.inl ⟨t :: l, by simp [readLightMapNames, ht, hl]⟩
        · right; simp [readLightMapNames, ht, hl]
      · right; simp [readLightMapNames, ht]

theorem readLightMapNames_length {n : Nat} {s : Bytes}
    {l : List (List Nat)} {r : Bytes}
    (h : readLightMapNames n s = .ok (l, r)) : l.length = n := by
  induction n generalizing s l r with
  | zero =>
      simp only [readLightMapNames, Except.ok.injEq, Prod.mk.injEq] at h
      simp [← h.1]
  | succ n ih =>
      simp only [readLightMapNames] at h
      rcases pbind_eq_ok.mp h with ⟨t, s1, ht, h⟩
      rcases pbind_eq_ok.mp h with ⟨ts, s2, hts, h2⟩
      simp only [Except.ok.injEq, Prod.mk.injEq] at h2
      rw [← h2.1]
      simp [ih hts]

theorem readMaterialInfo_ok_span {s : Bytes} {m : PolMaterialInfo}
    {r : Bytes} (h : readMaterialInfo s = .ok (m, r)) :
    spanMaterial s = .ok r := by
  unfold readMaterialInfo at h
  rcases pbind_eq_ok.mp h with ⟨dw0, s1, hdw, h⟩
  rcases pbind_eq_ok.mp h with ⟨blob, s2, hblob, h⟩
  rcases pbind_eq_ok.mp h with ⟨w, s3, hw, h⟩
  rcases pbind_eq_ok.mp h with ⟨lm, s4, hlm, h⟩
  rcases pbind_eq_ok.mp h with ⟨names, s5, hnames, h⟩
  simp only [Except.ok.injEq, Prod.mk.injEq] at h
  unfold spanMaterial
  rw [readU32_ok_skipE hdw, sbind_ok, readBytes_ok_skipE hblob, sbind_ok,
    readU32_ok_skipE hw, sbind_ok, hlm, pbind_ok]
  exact h.2 ▸ readLightMapNames_ok_skipE hnames

theorem spanMaterial_readMaterialInfo {s r : Bytes}
    (h : spanMaterial s = .ok r) :
    (∃ m, readMaterialInfo s = .ok (m, r)) ∨
      readMaterialInfo s = .error .invalidText := by
  unfold spanMaterial at h
  rcases sbind_eq_ok.mp h with ⟨s1, h1, h⟩
  rcases sbind_eq_ok.mp h with ⟨s2, h2, h⟩
  rcases sbind_eq_ok.mp h with ⟨s3, h3, h⟩
  rcases pbind_eq_ok.mp h with ⟨lm, s4, hlm, h⟩
  rcases skipE_four_readU32 h1 with ⟨dw0, hdw⟩
  have hblob := skipE_readBytes h2
  rcases skipE_four_readU32 h3 with ⟨w, hw⟩
  rcases skipE_readLightMapNames h with ⟨l, hl⟩ | hl
  · exact Or.inl ⟨⟨dw0, s1.take 64, clampF32 (decodeF32 w), lm, l⟩,
      by simp [readMaterialInfo, hdw, hblob, hw, hlm, hl]⟩
  · right; simp [readMaterialInfo, hdw, hblob, hw, hlm, hl]

theorem readMaterialInfo_float {s : Bytes} {m : PolMaterialInfo} {r : Bytes}
    (h : readMaterialInfo s = .ok (m, r)) :
    ∃ w, m.unknown_float = clampF32 (decodeF32 w) := by
  unfold readMaterialInfo at h
  rcases pbind_eq_ok.mp h with ⟨dw0, s1, hdw, h⟩
  rcases pbind_eq_ok.mp h with ⟨blob, s2, hblob, h⟩
  rcases pbind_eq_ok.mp h with ⟨w, s3, hw, h⟩
  rcases pbind_eq_ok.mp h with ⟨lm, s4, hlm, h⟩
  rcases pbind_eq_ok.mp h with ⟨names, s5, hnames, h⟩
  simp only [Except.ok.injEq, Prod.mk.injEq] at h
  exact ⟨w, by rw [← h.1]⟩

theorem readMaterialInfo_lm_length {s : Bytes} {m : PolMaterialInfo}
    {r : Bytes} (h : readMaterialInfo s = .ok (m, r)) :
    m.light_map_names.length = m.light_map_count := by
  unfold readMaterialInfo at h
  rcases pbind_eq_ok.mp h with ⟨dw0, s1, hdw, h⟩
  rcases pbind_eq_ok.mp h with ⟨blob, s2, hblob, h⟩
  rcases pbind_eq_ok.mp h with ⟨w, s3, hw, h⟩
  rcases pbind_eq_ok.mp h with ⟨lm, s4, hlm, h⟩
  rcases pbind_eq_ok.mp h with ⟨names, s5, hnames, h⟩
  simp only [Except.ok.injEq, Prod.mk.injEq] at h
  rw [← h.1]
  exact readLightMapNames_length hnames

theorem readMaterialInfos_ok_span {n : Nat} {s : Bytes}
    {ms : List PolMaterialInfo} {r : Bytes}
    (h : readMaterialInfos n s = .ok (ms, r)) :
    spanMaterials n s = .ok r := by
  induction n generalizing s ms r with
  | zero =>
      simp only [readMaterialInfos, Except.ok.injEq, Prod.mk.injEq] at h
      simp [spanMaterials, h.2]
  | succ n ih =>
      simp only [readMaterialInfos] at h
      rcases pbind_eq_ok.mp h with ⟨m, s1, hm, h⟩
      rcases pbind_eq_ok.mp h with ⟨ms2, s2, hms, h2⟩
      simp only [Except.ok.injEq, Prod.mk.injEq] at h2
      simp only [spanMaterials]
      rw [readMaterialInfo_ok_span hm, sbind_ok]
      exact h2.2 ▸ ih hms

theorem spanMaterials_read {n : Nat} {s r : Bytes}
    (h : spanMaterials n s = .ok r) :
    (∃ ms, readMaterialInfos n s = .ok (ms, r)) ∨
      readMaterialInfos n s = .error .invalidText := by
  induction n generalizing s r with
  | zero =>
      simp only [spanMaterials, Except.ok.injEq] at h
      exact Or.inl ⟨[], by simp [readMaterialInfos, h]⟩
  | succ n ih =>
      simp only [spanMaterials] at h
      rcases sbind_eq_ok.mp h with ⟨mid, h1, h2⟩
      rcases spanMaterial_readMaterialInfo h1 with ⟨m, hm⟩ | hm
      · rcases ih h2 with ⟨ms, hms⟩ | hms
        · exact Or.inl ⟨m :: ms, by simp [readMaterialInfos, hm, hms]⟩
        · right; simp [readMaterialInfos, hm, hms]
      · right; simp [readMaterialInfos, hm]

theorem readMaterialInfos_length {n : Nat} {s : Bytes}
    {ms : List PolMaterialInfo} {r : Bytes}
    (h : readMaterialInfos n s = .ok (ms, r)) : ms.length = n := by
  induction n generalizing s ms r with
  | zero =>
      simp only [readMaterialInfos, Except.ok.injEq, Prod.mk.injEq] at h
      simp [← h.1]
  | succ n ih =>
      simp only [readMaterialInfos] at h
      rcases pbind_eq_ok.mp h with ⟨m, s1, hm, h⟩
      rcases pbind_eq_ok.mp h with ⟨ms2, s2, hms, h2⟩
      simp only [Except.ok.injEq, Prod.mk.injEq] at h2
      rw [← h2.1]
      simp [ih hms]

theorem readMaterialInfos_mem {n : Nat} {s : Bytes}
    {ms : List PolMaterialInfo} {r : Bytes}
    (h : readMaterialInfos n s = .ok (ms, r)) {m : PolMaterialInfo}
    (hm : m ∈ ms) : ∃ s1 r1, readMaterialInfo s1 = .ok (m, r1) := by
  induction n generalizing s ms r with
  | zero =>
      simp only [readMaterialInfos, Except.ok.injEq, Prod.mk.injEq] at h
      rw [← h.1] at hm
      simp at hm
  | succ n ih =>
      simp only [readMaterialInfos] at h
      rcases pbind_eq_ok.mp h with ⟨m1, s1, hm1, h⟩
      rcases pbind_eq_ok.mp h with ⟨ms2, s2, hms, h2⟩
      simp only [Except.ok.injEq, Prod.mk.injEq] at h2
      rw [← h2.1] at hm
      rcases List.mem_cons.mp hm with rfl | hm
      · exact ⟨s, s1, hm1⟩
      · exact ih hms hm

/-! Triangle lemmas. -/

theorem readTriangle_ok_skipE {s : Bytes} {t : PolTriangle} {r : Bytes}
    (h : readTriangle s = .ok (t, r)) : skipE 6 s = .ok r := by
  unfold readTriangle at h
  rcases pbind_eq_ok.mp h with ⟨i0, s1, h0, h⟩
  rcases pbind_eq_ok.mp h with ⟨i1, s2, h1, h⟩
  rcases pbind_eq_ok.mp h with ⟨i2, s3, h2, h⟩
  simp only [Except.ok.injEq, Prod.mk.injEq] at h
  exact h.2 ▸ skipE_comp (skipE_comp (readU16_ok_skipE h0)
    (readU16_ok_skipE h1)) (readU16_ok_skipE h2)

theorem skipE_readTriangle {s r : Bytes} (h : skipE 6 s = .ok r) :
    ∃ t, readTriangle s = .ok (t, r) := by
  have h6 : skipE (2 + 2 + 2) s = .ok r := h
  rcases skipE_split h6 with ⟨m2, h12, h2⟩
  rcases skipE_split h12 with ⟨m1, h0, h1⟩
  rcases skipE_two_readU16 h0 with ⟨i0, h0r⟩
  rcases skipE_two_readU16 h1 with ⟨i1, h1r⟩
  rcases skipE_two_readU16 h2 with ⟨i2, h2r⟩
  exact ⟨⟨[i0, i1, i2]⟩, by simp [readTriangle, h0r, h1r, h2r]⟩

theorem readTriangles_ok_skipE {n : Nat} {s : Bytes}
    {ts : List PolTriangle} {r : Bytes}
    (h : readTriangles n s = .ok (ts, r)) : skipE (6 * n) s = .ok r := by
  induction n generalizing s ts r with
  | zero =>
      simp only [readTriangles, Except.ok.injEq, Prod.mk.injEq] at h
      simp [h.2]
  | succ n ih =>
      simp only [readTriangles] at h
      rcases pbind_eq_ok.mp h with ⟨t, s1, ht, h⟩
      rcases pbind_eq_ok.mp h with ⟨ts2, s2, hts, h2⟩
      simp only [Except.ok.injEq, Prod.mk.injEq] at h2
      have heq : 6 * (n + 1) = 6 + 6 * n := by ring
      rw [heq]
      exact skipE_comp (readTriangle_ok_skipE ht) (h2.2 ▸ ih hts)

theorem skipE_readTriangles {n : Nat} {s r : Bytes}
    (h : skipE (6 * n) s = .ok r) :
    ∃ ts, readTriangles n s = .ok (ts, r) := by
  induction n generalizing s r with
  | zero =>
      simp at h
      exact ⟨[], by simp [readTriangles, h]⟩
  | succ n ih =>
      have heq : 6 * (n + 1) = 6 + 6 * n := by ring
      rw [heq] at h
      rcases skipE_split h with ⟨mid, h1, h2⟩
      rcases skipE_readTriangle h1 with ⟨t, ht⟩
      rcases ih h2 with ⟨ts, hts⟩
      exact ⟨t :: ts, by simp [readTriangles, ht, hts]⟩

theorem readTriangles_length {n : Nat} {s : Bytes} {ts : List PolTriangle}
    {r : Bytes} (h : readTriangles n s = .ok (ts, r)) : ts.length = n := by
  induction n generalizing s ts r with
  | zero =>
      simp only [readTriangles, Except.ok.injEq, Prod.mk.injEq] at h
      simp [← h.1]
  | succ n ih =>
      simp only [readTriangles] at h
      rcases pbind_eq_ok.mp h with ⟨t, s1, ht, h⟩
      rcases pbind_eq_ok.mp h with ⟨ts2, s2, hts, h2⟩
      simp only [Except.ok.injEq, Prod.mk.injEq] at h2
      rw [← h2.1]
      simp [ih hts]

/-! Transform-node and descriptor lemmas. -/

theorem readUnknownData_ok_span {s : Bytes} {d : UnknownData} {r : Bytes}
    (h : readUnknownData s = .ok (d, r)) : spanTransformNode s = .ok r := by
  unfold readUnknownData at h
  rcases pbind_eq_ok.mp h with ⟨u, s1, hu, h⟩
  rcases pbind_eq_ok.mp h with ⟨mat, s2, hmat, h⟩
  rcases pbind_eq_ok.mp h with ⟨u2, s3, hu2, h⟩
  rcases pbind_eq_ok.mp h with ⟨strLen, s4, hsl, h⟩
  rcases pbind_eq_ok.mp h with ⟨ddd, s5, hddd, h⟩
  simp only [Except.ok.injEq, Prod.mk.injEq] at h
  unfold spanTransformNode
  have hmat64 : skipE 64 s1 = .ok s2 := readWords_ok_skipE hmat
  rw [readBytes_ok_skipE hu, sbind_ok, hmat64, sbind_ok,
    readU32_ok_skipE hu2, sbind_ok, hsl, pbind_ok]
  exact h.2 ▸ readBytes_ok_skipE hddd

theorem spanTransformNode_read {s r : Bytes}
    (h : spanTransformNode s = .ok r) :
    ∃ d, readUnknownData s = .ok (d, r) := by
  unfold spanTransformNode at h
  rcases sbind_eq_ok.mp h with ⟨s1, h1, h⟩
  rcases sbind_eq_ok.mp h with ⟨s2, h2, h⟩
  rcases sbind_eq_ok.mp h with ⟨s3, h3, h⟩
  rcases pbind_eq_ok.mp h with ⟨strLen, s4, hsl, h⟩
  have hu := skipE_readBytes h1
  have hmat : skipE (4 * 16) s1 = .ok s2 := h2
  rcases skipE_readWords hmat with ⟨mat, hmatr⟩
  rcases skipE_four_readU32 h3 with ⟨u2, hu2⟩
  have hddd := skipE_readBytes h
  exact ⟨⟨s.take 32, mat, u2, strLen, s4.take strLen⟩,
    by simp [readUnknownData, hu, hmatr, hu2, hsl, hddd]⟩

theorem readUnknownDatas_ok_span {n : Nat} {s : Bytes}
    {ds : List UnknownData} {r : Bytes}
    (h : readUnknownDatas n s = .ok (ds, r)) :
    spanTransformNodes n s = .ok r := by
  induction n generalizing s ds r with
  | zero =>
      simp only [readUnknownDatas, Except.ok.injEq, Prod.mk.injEq] at h
      simp [spanTransformNodes, h.2]
  | succ n ih =>
      simp only [readUnknownDatas] at h
      rcases pbind_eq_ok.mp h with ⟨d, s1, hd, h⟩
      rcases pbind_eq_ok.mp h with ⟨ds2, s2, hds, h2⟩
      simp only [Except.ok.injEq, Prod.mk.injEq] at h2
      simp only [spanTransformNodes]
      rw [readUnknownData_ok_span hd, sbind_ok]
      exact h2.2 ▸ ih hds

theorem spanTransformNodes_read {n : Nat} {s r : Bytes}
    (h : spanTransformNodes n s = .ok r) :
    ∃ ds, readUnknownDatas n s = .ok (ds, r) := by
  induction n generalizing s r with
  | zero =>
      simp only [spanTransformNodes, Except.ok.injEq] at h
      exact ⟨[], by simp [readUnknownDatas, h]⟩
  | succ n ih =>
      simp only [spanTransformNodes] at h
      rcases sbind_eq_ok.mp h with ⟨mid, h1, h2⟩
      rcases spanTransformNode_read h1 with ⟨d, hd⟩
      rcases ih h2 with ⟨ds, hds⟩
      exact ⟨d :: ds, by simp [readUnknownDatas, hd, hds]⟩

theorem readUnknownDatas_length {n : Nat} {s : Bytes}
    {ds : List UnknownData} {r : Bytes}
    (h : readUnknownDatas n s = .ok (ds, r)) : ds.length = n := by
  induction n generalizing s ds r with
  | zero =>
      simp only [readUnknownDatas, Except.ok.injEq, Prod.mk.injEq] at h
      simp [← h.1]
  | succ n ih =>
      simp only [readUnknownDatas] at h
      rcases pbind_eq_ok.mp h with ⟨d, s1, hd, h⟩
      rcases pbind_eq_ok.mp h with ⟨ds2, s2, hds, h2⟩
      simp only [Except.ok.injEq, Prod.mk.injEq] at h2
      rw [← h2.1]
      simp [ih hds]

theorem readTransformSection_ok_span {flag : Nat} {s : Bytes}
    {cd : Nat × List UnknownData} {r : Bytes}
    (h : readTransformSection flag s = .ok (cd, r)) :
    spanTransformSection flag s = .ok r := by
  unfold readTransformSection at h
  unfold spanTransformSection
  by_cases hf : 100 < flag
  · rw [if_pos hf] at h ⊢
    rcases pbind_eq_ok.mp h with ⟨c, s1, hc, h⟩
    rw [hc, pbind_ok]
    by_cases hc0 : 0 < c
    · rw [if_pos hc0] at h
      rcases pbind_eq_ok.mp h with ⟨ds, s2, hds, h2⟩
      simp only [Except.ok.injEq, Prod.mk.injEq] at h2
      exact h2.2 ▸ readUnknownDatas_ok_span hds
    · rw [if_neg hc0] at h
      simp only [Except.ok.injEq, Prod.mk.injEq] at h
      have hc0e : c = 0 := by omega
      rw [hc0e]
      simp only [spanTransformNodes]
      rw [h.2]
  · rw [if_neg hf] at h ⊢
    simp only [Except.ok.injEq, Prod.mk.injEq] at h
    rw [h.2]

theorem spanTransformSection_read {flag : Nat} {s r : Bytes}
    (h : spanTransformSection flag s = .ok r) :
    ∃ cd, readTransformSection flag s = .ok (cd, r) := by
  unfold spanTransformSection at h
  unfold readTransformSection
  by_cases hf : 100 < flag
  · rw [if_pos hf] at h ⊢
    rcases pbind_eq_ok.mp h with ⟨c, s1, hc, h⟩
    rw [hc, pbind_ok]
    by_cases hc0 : 0 < c
    · rw [if_pos hc0]
      rcases spanTransformNodes_read h with ⟨ds, hds⟩
      exact ⟨(c, ds), by simp [hds]⟩
    · rw [if_neg hc0]
      have hc0e : c = 0 := by omega
      rw [hc0e] at h
      simp only [spanTransformNodes] at h
      exact ⟨(c, []), by simp [(Except.ok.inj h)]⟩
  · rw [if_neg hf] at h ⊢
    exact ⟨(0, []), by simp [(Except.ok.inj h)]⟩

theorem readTransformSection_inv {flag : Nat} {s : Bytes} {c : Nat}
    {ds : List UnknownData} {r : Bytes}
    (h : readTransformSection flag s = .ok ((c, ds), r)) :
    ds.length = c ∧ (¬ 100 < flag → c = 0 ∧ ds = [] ∧ r = s) := by
  unfold readTransformSection at h
  by_cases hf : 100 < flag
  · rw [if_pos hf] at h
    rcases pbind_eq_ok.mp h with ⟨c1, s1, hc, h⟩
    by_cases hc0 : 0 < c1
    · rw [if_pos hc0] at h
      rcases pbind_eq_ok.mp h with ⟨ds1, s2, hds, h2⟩
      simp only [Except.ok.injEq, Prod.mk.injEq] at h2
      obtain ⟨⟨hcc, hdd⟩, hrr⟩ := h2
      refine ⟨?_, fun hnf => absurd hf hnf⟩
      rw [← hcc, ← hdd]
      exact readUnknownDatas_length hds
    · rw [if_neg hc0] at h
      simp only [Except.ok.injEq, Prod.mk.injEq] at h
      obtain ⟨⟨hcc, hdd⟩, hrr⟩ := h
      refine ⟨?_, fun hnf => absurd hf hnf⟩
      rw [← hcc, ← hdd]
      simp; omega
  · rw [if_neg hf] at h
    simp only [Except.ok.injEq, Prod.mk.injEq] at h
    obtain ⟨⟨hcc, hdd⟩, hrr⟩ := h
    exact ⟨by rw [← hcc, ← hdd]; rfl,
      fun _ => ⟨hcc.symm, hdd.symm, hrr.symm⟩⟩

theorem readGeomNodeDescs_ok_skipE {n : Nat} {s : Bytes}
    {ds : List GeomNodeDesc} {r : Bytes}
    (h : readGeomNodeDescs n s = .ok (ds, r)) :
    skipE (52 * n) s = .ok r := by
  induction n generalizing s ds r with
  | zero =>
      simp only [readGeomNodeDescs, Except.ok.injEq, Prod.mk.injEq] at h
      simp [h.2]
  | succ n ih =>
      simp only [readGeomNodeDescs] at h
      rcases pbind_eq_ok.mp h with ⟨u, s1, hu, h⟩
      rcases pbind_eq_ok.mp h with ⟨ds2, s2, hds, h2⟩
      simp only [Except.ok.injEq, Prod.mk.injEq] at h2
      have heq : 52 * (n + 1) = 52 + 52 * n := by ring
      rw [heq]
      exact skipE_comp (readBytes_ok_skipE hu) (h2.2 ▸ ih hds)

theorem skipE_readGeomNodeDescs {n : Nat} {s r : Bytes}
    (h : skipE (52 * n) s = .ok r) :
    ∃ ds, readGeomNodeDescs n s = .ok (ds, r) := by
  induction n generalizing s r with
  | zero =>
      simp at h
      exact ⟨[], by simp [readGeomNodeDescs, h]⟩
  | succ n ih =>
      have heq : 52 * (n + 1) = 52 + 52 * n := by ring
      rw [heq] at h
      rcases skipE_split h with ⟨mid, h1, h2⟩
      have hu := skipE_readBytes h1
      rcases ih h2 with ⟨ds, hds⟩
      exact ⟨⟨s.take 52⟩ :: ds, by simp [readGeomNodeDescs, hu, hds]⟩

theorem readGeomNodeDescs_length {n : Nat} {s : Bytes}
    {ds : List GeomNodeDesc} {r : Bytes}
    (h : readGeomNodeDescs n s = .ok (ds, r)) : ds.length = n := by
  induction n generalizing s ds r with
  | zero =>
      simp only [readGeomNodeDescs, Except.ok.injEq, Prod.mk.injEq] at h
      simp [← h.1]
  | succ n ih =>
      simp only [readGeomNodeDescs] at h
      rcases pbind_eq_ok.mp h with ⟨u, s1, hu, h⟩
      rcases pbind_eq_ok.mp h with ⟨ds2, s2, hds, h2⟩
      simp only [Except.ok.injEq, Prod.mk.injEq] at h2
      rw [← h2.1]
      simp [ih hds]

/-! Mesh-level lemmas. -/

theorem readPolMesh_ok_span {s : Bytes} {mesh : PolMesh} {r : Bytes}
    (h : readPolMesh s = .ok (mesh, r)) : spanMesh s = .ok r := by
  unfold readPolMesh at h
  rcases pbind_eq_ok.mp h with ⟨amin, s1, hamin, h⟩
  rcases pbind_eq_ok.mp h with ⟨amax, s2, hamax, h⟩
  rcases pbind_eq_ok.mp h with ⟨vt, s3, hvt, h⟩
  rcases pbind_eq_ok.mp h with ⟨vc, s4, hvc, h⟩
  rcases pbind_eq_ok.mp h with ⟨vs, s5, hvs, h⟩
  rcases pbind_eq_ok.mp h with ⟨mic, s6, hmic, h⟩
  rcases pbind_eq_ok.mp h with ⟨ms, s7, hms, h⟩
  rcases pbind_eq_ok.mp h with ⟨u2, s8, hu2, h⟩
  rcases pbind_eq_ok.mp h with ⟨u3, s9, hu3, h⟩
  rcases pbind_eq_ok.mp h with ⟨u4, s10, hu4, h⟩
  rcases pbind_eq_ok.mp h with ⟨tc, s11, htc, h⟩
  rcases pbind_eq_ok.mp h with ⟨ts, s12, hts, h⟩
  simp only [Except.ok.injEq, Prod.mk.injEq] at h
  unfold spanMesh
  have ha1 : skipE 12 s = .ok s1 := readWords_ok_skipE hamin
  have ha2 : skipE 12 s1 = .ok s2 := readWords_ok_skipE hamax
  have hu12 : skipE 12 s7 = .ok s10 :=
    skipE_comp (skipE_comp (readU32_ok_skipE hu2) (readU32_ok_skipE hu3))
      (readU32_ok_skipE hu4)
  rw [ha1, sbind_ok, ha2, sbind_ok, hvt, pbind_ok, hvc, pbind_ok,
    readVertices_ok_skipE hvs, sbind_ok, hmic, pbind_ok,
    readMaterialInfos_ok_span hms, sbind_ok, hu12, sbind_ok, htc, pbind_ok]
  exact h.2 ▸ readTriangles_ok_skipE hts

theorem spanMesh_read {s r : Bytes} (h : spanMesh s = .ok r) :
    (∃ mesh, readPolMesh s = .ok (mesh, r)) ∨
      readPolMesh s = .error .missingMandatoryAttribute ∨
      readPolMesh s = .error .invalidText := by
  unfold spanMesh at h
  rcases sbind_eq_ok.mp h with ⟨s1, ha1, h⟩
  rcases sbind_eq_ok.mp h with ⟨s2, ha2, h⟩
  rcases pbind_eq_ok.mp h with ⟨mask, s3, hmask, h⟩
  rcases pbind_eq_ok.mp h with ⟨vc, s4, hvc, h⟩
  rcases sbind_eq_ok.mp h with ⟨s5, hskipv, h⟩
  rcases pbind_eq_ok.mp h with ⟨mc, s6, hmc, h⟩
  rcases sbind_eq_ok.mp h with ⟨s7, hmats, h⟩
  rcases sbind_eq_ok.mp h with ⟨s8, hu12, h⟩
  rcases pbind_eq_ok.mp h with ⟨tc, s9, htc, h⟩
  have ha1w : skipE (4 * 3) s = .ok s1 := ha1
  rcases skipE_readWords ha1w with ⟨amin, haminr⟩
  have ha2w : skipE (4 * 3) s1 = .ok s2 := ha2
  rcases skipE_readWords ha2w with ⟨amax, hamaxr⟩
  have hu12c : skipE (4 + 4 + 4) s7 = .ok s8 := hu12
  rcases skipE_split hu12c with ⟨mu2, hu23, hu4s⟩
  rcases skipE_split hu23 with ⟨mu1, hu2s, hu3s⟩
  rcases skipE_four_readU32 hu2s with ⟨u2, hu2r⟩
  rcases skipE_four_readU32 hu3s with ⟨u3, hu3r⟩
  rcases skipE_four_readU32 hu4s with ⟨u4, hu4r⟩
  rcases skipE_readTriangles h with ⟨ts, hts⟩
  by_cases hvc0 : vc = 0
  · subst hvc0
    have hs45 : s4 = s5 := by simpa using hskipv
    subst hs45
    have hvsr : readVertices mask 0 s4 = .ok ([], s4) := by
      simp [readVertices]
    rcases spanMaterials_read hmats with ⟨ms, hms⟩ | hms
    · exact Or.inl ⟨⟨amin, amax, mask, 0, [], mc, ms, u2, u3, u4, tc, ts⟩,
        by simp [readPolMesh, haminr, hamaxr, hmask, hvc, hvsr, hmc, hms,
          hu2r, hu3r, hu4r, htc, hts]⟩
    · right; right
      simp [readPolMesh, haminr, hamaxr, hmask, hvc, hvsr, hmc, hms]
  · by_cases hbits : hasComp mask 0b1 = true ∧ hasComp mask 0b10000 = true
    · obtain ⟨hb1, hb10⟩ := hbits
      rcases skipE_readVertices hb1 hb10 hskipv with ⟨vs, hvsr⟩
      rcases spanMaterials_read hmats with ⟨ms, hms⟩ | hms
      · exact Or.inl ⟨⟨amin, amax, mask, vc, vs, mc, ms, u2, u3, u4, tc, ts⟩,
          by simp [readPolMesh, haminr, hamaxr, hmask, hvc, hvsr, hmc, hms,
            hu2r, hu3r, hu4r, htc, hts]⟩
      · right; right
        simp [readPolMesh, haminr, hamaxr, hmask, hvc, hvsr, hmc, hms]
    · right; left
      simp only [not_and_or, Bool.not_eq_true] at hbits
      have hvsr := readVertices_missing (s := s4) hbits
        (Nat.pos_of_ne_zero hvc0)
      simp [readPolMesh, haminr, hamaxr, hmask, hvc, hvsr]

theorem readPolMesh_fields {s : Bytes} {mesh : PolMesh} {r : Bytes}
    (h : readPolMesh s = .ok (mesh, r)) :
    mesh.vertices.length = mesh.vertex_count ∧
    mesh.material_info.length = mesh.material_info_count ∧
    mesh.triangles.length = mesh.triangle_count := by
  unfold readPolMesh at h
  rcases pbind_eq_ok.mp h with ⟨amin, s1, hamin, h⟩
  rcases pbind_eq_ok.mp h with ⟨amax, s2, hamax, h⟩
  rcases pbind_eq_ok.mp h with ⟨vt, s3, hvt, h⟩
  rcases pbind_eq_ok.mp h with ⟨vc, s4, hvc, h⟩
  rcases pbind_eq_ok.mp h with ⟨vs, s5, hvs, h⟩
  rcases pbind_eq_ok.mp h with ⟨mic, s6, hmic, h⟩
  rcases pbind_eq_ok.mp h with ⟨ms, s7, hms, h⟩
  rcases pbind_eq_ok.mp h with ⟨u2, s8, hu2, h⟩
  rcases pbind_eq_ok.mp h with ⟨u3, s9, hu3, h⟩
  rcases pbind_eq_ok.mp h with ⟨u4, s10, hu4, h⟩
  rcases pbind_eq_ok.mp h with ⟨tc, s11, htc, h⟩
  rcases pbind_eq_ok.mp h with ⟨ts, s12, hts, h⟩
  simp only [Except.ok.injEq, Prod.mk.injEq] at h
  rw [← h.1]
  exact ⟨readVertices_length hvs, readMaterialInfos_length hms,
    readTriangles_length hts⟩

theorem readPolMesh_mem_mat {s : Bytes} {mesh : PolMesh} {r : Bytes}
    (h : readPolMesh s = .ok (mesh, r)) {m : PolMaterialInfo}
    (hm : m ∈ mesh.material_info) :
    ∃ s1 r1, readMaterialInfo s1 = .ok (m, r1) := by
  unfold readPolMesh at h
  rcases pbind_eq_ok.mp h with ⟨amin, s1, hamin, h⟩
  rcases pbind_eq_ok.mp h with ⟨amax, s2, hamax, h⟩
  rcases pbind_eq_ok.mp h with ⟨vt, s3, hvt, h⟩
  rcases pbind_eq_ok.mp h with ⟨vc, s4, hvc, h⟩
  rcases pbind_eq_ok.mp h with ⟨vs, s5, hvs, h⟩
  rcases pbind_eq_ok.mp h with ⟨mic, s6, hmic, h⟩
  rcases pbind_eq_ok.mp h with ⟨ms, s7, hms, h⟩
  rcases pbind_eq_ok.mp h with ⟨u2, s8, hu2, h⟩
  rcases pbind_eq_ok.mp h with ⟨u3, s9, hu3, h⟩
  rcases pbind_eq_ok.mp h with ⟨u4, s10, hu4, h⟩
  rcases pbind_eq_ok.mp h with ⟨tc, s11, htc, h⟩
  rcases pbind_eq_ok.mp h with ⟨ts, s12, hts, h⟩
  simp only [Except.ok.injEq, Prod.mk.injEq] at h
  rw [← h.1] at hm
  exact readMaterialInfos_mem hms hm

theorem readMeshes_ok_span {n : Nat} {s : Bytes} {ms : List PolMesh}
    {r : Bytes} (h : readMeshes n s = .ok (ms, r)) :
    spanMeshes n s = .ok r := by
  induction n generalizing s ms r with
  | zero =>
      simp only [readMeshes, Except.ok.injEq, Prod.mk.injEq] at h
      simp [spanMeshes, h.2]
  | succ n ih =>
      simp only [readMeshes] at h
      rcases pbind_eq_ok.mp h with ⟨m, s1, hm, h⟩
      rcases pbind_eq_ok.mp h with ⟨ms2, s2, hms, h2⟩
      simp only [Except.ok.injEq, Prod.mk.injEq] at h2
      simp only [spanMeshes]
      rw [readPolMesh_ok_span hm, sbind_ok]
      exact h2.2 ▸ ih hms

theorem spanMeshes_read {n : Nat} {s r : Bytes}
    (h : spanMeshes n s = .ok r) :
    (∃ ms, readMeshes n s = .ok (ms, r)) ∨
      readMeshes n s = .error .missingMandatoryAttribute ∨
      readMeshes n s = .error .invalidText := by
  induction n generalizing s r with
  | zero =>
      simp only [spanMeshes, Except.ok.injEq] at h
      exact Or.inl ⟨[], by simp [readMeshes, h]⟩
  | succ n ih =>
      simp only [spanMeshes] at h
      rcases sbind_eq_ok.mp h with ⟨mid, h1, h2⟩
      rcases spanMesh_read h1 with ⟨m, hm⟩ | hm | hm
      · rcases ih h2 with ⟨ms, hms⟩ | hms | hms
        · exact Or.inl ⟨m :: ms, by simp [readMeshes, hm, hms]⟩
        · right; left; simp [readMeshes, hm, hms]
        · right; right; simp [readMeshes, hm, hms]
      · right; left; simp [readMeshes, hm]
      · right; right; simp [readMeshes, hm]

theorem readMeshes_length {n : Nat} {s : Bytes} {ms : List PolMesh}
    {r : Bytes} (h : readMeshes n s = .ok (ms, r)) : ms.length = n := by
  induction n generalizing s ms r with
  | zero =>
      simp only [readMeshes, Except.ok.injEq, Prod.mk.injEq] at h
      simp [← h.1]
  | succ n ih =>
      simp only [readMeshes] at h
      rcases pbind_eq_ok.mp h with ⟨m, s1, hm, h⟩
      rcases pbind_eq_ok.mp h with ⟨ms2, s2, hms, h2⟩
      simp only [Except.ok.injEq, Prod.mk.injEq] at h2
      rw [← h2.1]
      simp [ih hms]

theorem readMeshes_mem {n : Nat} {s : Bytes} {ms : List PolMesh} {r : Bytes}
    (h : readMeshes n s = .ok (ms, r)) {mesh : PolMesh}
    (hm : mesh ∈ ms) : ∃ s1 r1, readPolMesh s1 = .ok (mesh, r1) := by
  induction n generalizing s ms r with
  | zero =>
      simp only [readMeshes, Except.ok.injEq, Prod.mk.injEq] at h
      rw [← h.1] at hm
      simp at hm
  | succ n ih =>
      simp only [readMeshes] at h
      rcases pbind_eq_ok.mp h with ⟨m1, s1, hm1, h⟩
      rcases pbind_eq_ok.mp h with ⟨ms2, s2, hms, h2⟩
      simp only [Except.ok.injEq, Prod.mk.injEq] at h2
      rw [← h2.1] at hm
      rcases List.mem_cons.mp hm with rfl | hm
      · exact ⟨s, s1, hm1⟩
      · exact ih hms hm

/-! Strict-decoder equalities above the vertex level. -/

theorem readPolMesh_eq_strict (s : Bytes) :
    readPolMesh s = readPolMeshStrict s := by
  unfold readPolMesh readPolMeshStrict
  apply pbind_congr; intro amin s
  apply pbind_congr; intro amax s
  apply pbind_congr; intro vt s
  apply pbind_congr; intro vc s
  rw [readVertices_eq_strict]

theorem readMeshes_eq_strict (n : Nat) (s : Bytes) :
    readMeshes n s = readMeshesStrict n s := by
  induction n generalizing s with
  | zero => rfl
  | succ n ih =>
      simp only [readMeshes, readMeshesStrict, readPolMesh_eq_strict]
      apply pbind_congr; intro m s1
      rw [ih]

theorem pol_load_body_eq_strict (s : Bytes) :
    pol_load_body s = pol_load_body_strict s := by
  unfold pol_load_body pol_load_body_strict
  apply pbind_congr; intro flag s
  apply pbind_congr; intro mc s
  apply pbind_congr; intro descs s
  apply pbind_congr; intro ud s
  rw [readMeshes_eq_strict]

theorem pol_load_eq_strict (s : Bytes) :
    pol_load_from_file s = pol_load_strict s := by
  unfold pol_load_from_file pol_load_strict
  apply pbind_congr; intro magic s1
  by_cases hm : magic = SIG
  · rw [if_pos hm, if_pos hm, pol_load_body_eq_strict]
  · rw [if_neg hm, if_neg hm]

/-! Document-level lemmas. -/

theorem pol_load_body_ok_span {s : Bytes} {f : PolFile}
    (h : pol_load_body s = .ok f) : ∃ r, spanBody s = .ok r := by
  unfold pol_load_body at h
  rcases pbind_eq_ok.mp h with ⟨flag, s2, hflag, h⟩
  rcases pbind_eq_ok.mp h with ⟨mc, s3, hmc, h⟩
  rcases pbind_eq_ok.mp h with ⟨descs, s4, hdescs, h⟩
  rcases pbind_eq_ok.mp h with ⟨ud, s5, hud, h⟩
  rcases pbind_eq_ok.mp h with ⟨meshes, r, hmeshes, h⟩
  refine ⟨r, ?_⟩
  unfold spanBody
  rw [hflag, pbind_ok, hmc, pbind_ok, readGeomNodeDescs_ok_skipE hdescs,
    sbind_ok, readTransformSection_ok_span hud, sbind_ok]
  exact readMeshes_ok_span hmeshes

theorem spanBody_read {s r : Bytes} (h : spanBody s = .ok r) :
    (∃ f, pol_load_body s = .ok f) ∨
      pol_load_body s = .error .missingMandatoryAttribute ∨
      pol_load_body s = .error .invalidText := by
  unfold spanBody at h
  rcases pbind_eq_ok.mp h with ⟨flag, s2, hflag, h⟩
  rcases pbind_eq_ok.mp h with ⟨mc, s3, hmc, h⟩
  rcases sbind_eq_ok.mp h with ⟨s4, hdescs, h⟩
  rcases sbind_eq_ok.mp h with ⟨s5, hts, h⟩
  rcases skipE_readGeomNodeDescs hdescs with ⟨descs, hdescsr⟩
  rcases spanTransformSection_read hts with ⟨cd, hcd⟩
  rcases spanMeshes_read h with ⟨ms, hms⟩ | hms | hms
  · exact Or.inl ⟨⟨SIG, flag, mc, descs, cd.1, cd.2, ms⟩,
      by simp [pol_load_body, hflag, hmc, hdescsr, hcd, hms]⟩
  · right; left; simp [pol_load_body, hflag, hmc, hdescsr, hcd, hms]
  · right; right; simp [pol_load_body, hflag, hmc, hdescsr, hcd, hms]

theorem pol_load_ok_spanFits {s : Bytes} {f : PolFile}
    (h : pol_load_from_file s = .ok f) : spanFits s = true := by
  unfold pol_load_from_file at h
  rcases pbind_eq_ok.mp h with ⟨magic, s1, hmagic, h⟩
  by_cases hm : magic = SIG
  case neg => rw [if_neg hm] at h; exact absurd h (by simp)
  rw [if_pos hm] at h
  rcases pol_load_body_ok_span h with ⟨r, hr⟩
  unfold spanFits spanDoc
  rw [readBytes_ok_skipE hmagic, sbind_ok, hr]
  rfl

theorem spanFits_pol_load {s : Bytes} (hsig : s.take 4 = SIG)
    (h : spanFits s = true) :
    (∃ f, pol_load_from_file s = .ok f) ∨
      pol_load_from_file s = .error .missingMandatoryAttribute ∨
      pol_load_from_file s = .error .invalidText := by
  unfold spanFits spanDoc at h
  have hex : ∃ r, sbind (skipE 4 s) spanBody = .ok r := by
    cases he : sbind (skipE 4 s) spanBody with
    | ok r => exact ⟨r, rfl⟩
    | error e => rw [he] at h; simp [Except.isOk, Except.toBool] at h
  rcases hex with ⟨r, hr⟩
  rcases sbind_eq_ok.mp hr with ⟨s1, hskip, hb⟩
  have hrb : readBytes 4 s = .ok (s.take 4, s1) := skipE_readBytes hskip
  rcases spanBody_read hb with ⟨f, hf⟩ | hf | hf
  · exact Or.inl ⟨f, by simp [pol_load_from_file, hrb, hsig, hf]⟩
  · right; left; simp [pol_load_from_file, hrb, hsig, hf]
  · right; right; simp [pol_load_from_file, hrb, hsig, hf]

theorem pol_load_ok_elim {bs : Bytes} {f : PolFile}
    (h : pol_load_from_file bs = .ok f) :
    ∃ s1 s2 s3 s4 s5 r,
      readBytes 4 bs = .ok (SIG, s1) ∧
      readU32 s1 = .ok (f.some_flag, s2) ∧
      readU32 s2 = .ok (f.mesh_count, s3) ∧
      readGeomNodeDescs f.mesh_count s3 = .ok (f.geom_node_descs, s4) ∧
      readTransformSection f.some_flag s4 =
        .ok ((f.unknown_count, f.unknown_data), s5) ∧
      readMeshes f.mesh_count s5 = .ok (f.meshes, r) := by
  unfold pol_load_from_file at h
  rcases pbind_eq_ok.mp h with ⟨magic, s1, hmagic, h⟩
  by_cases hm : magic = SIG
  case neg => rw [if_neg hm] at h; exact absurd h (by simp)
  rw [if_pos hm] at h
  subst hm
  unfold pol_load_body at h
  rcases pbind_eq_ok.mp h with ⟨flag, s2, hflag, h⟩
  rcases pbind_eq_ok.mp h with ⟨mc, s3, hmc, h⟩
  rcases pbind_eq_ok.mp h with ⟨descs, s4, hdescs, h⟩
  rcases pbind_eq_ok.mp h with ⟨ud, s5, hud, h⟩
  rcases pbind_eq_ok.mp h with ⟨meshes, r, hmeshes, h⟩
  simp only [Except.ok.injEq] at h
  subst h
  exact ⟨s1, s2, s3, s4, s5, r, hmagic, hflag, hmc, hdescs, hud, hmeshes⟩

theorem isOk_exists {α : Type} {m : Except PolError α} (h : m.isOk = true) :
    ∃ a, m = .ok a := by
  cases m with
  | ok a => exact ⟨a, rfl⟩
  | error e => simp [Except.isOk, Except.toBool] at h

theorem clampF32_range (x : Flt) :
    ∃ q : ℚ, clampF32 x = .fin q ∧ 0 ≤ q ∧ q ≤ 128 := by
  cases x with
  | nan =>
      refine ⟨128, ?_, by norm_num, by norm_num⟩
      simp [clampF32, fmin, fmax]
  | posinf =>
      refine ⟨128, ?_, by norm_num, by norm_num⟩
      simp [clampF32, fmin, fmax]
  | neginf =>
      exact ⟨0, by simp [clampF32, fmin, fmax], le_refl 0, by norm_num⟩
  | fin q =>
      refine ⟨max (min q 128) 0, by simp [clampF32, fmin, fmax], ?_, ?_⟩
      · exact le_max_right _ _
      · exact max_le (le_trans (min_le_right q 128) (by norm_num))
          (by norm_num)

/-! The ten claims. -/

/-- Claim C1: for every input byte stream, a failing primitive read aborts
the whole decode (the decoder equals the strictly-propagating one, even at
the `unknown2` vertex block whose read error the source drops), and for
every input that begins with the 4-byte signature and does not trip the
mask- or text-validity errors, the decode succeeds exactly when every
declared count's implied byte span fits within the remaining source. -/
theorem c1_failure_propagation_and_span_iff (bs : Bytes) :
    pol_load_from_file bs = pol_load_strict bs ∧
    (bs.take 4 = SIG →
      pol_load_from_file bs ≠ .error .missingMandatoryAttribute →
      pol_load_from_file bs ≠ .error .invalidText →
      ((pol_load_from_file bs).isOk = true ↔ spanFits bs = true)) := by
  refine ⟨pol_load_eq_strict bs, fun hsig hmma hit => ?_⟩
  constructor
  · intro h
    rcases isOk_exists h with ⟨f, hf⟩
    exact pol_load_ok_spanFits hf
  · intro h
    rcases spanFits_pol_load hsig h with ⟨f, hf⟩ | hf | hf
    · simp [hf, Except.isOk, Except.toBool]
    · exact absurd hf hmma
    · exact absurd hf hit

theorem c1_witness :
    (pol_load_from_file W1 = pol_load_strict W1 ∧
      ((pol_load_from_file W1).isOk = true ↔ spanFits W1 = true)) :=
  ⟨(c1_failure_propagation_and_span_iff W1).1,
    (c1_failure_propagation_and_span_iff W1).2 (by decide) (by decide)
      (by decide)⟩

/-- Claim C2 (counterexample): under mask 0x11 (Position and TexCoord only)
a vertex decodes successfully with its first optional 2-float block absent,
although mask bit 0b10000 is set — so that block is not gated by bit
0b10000 as claimed (0b10000 is the TexCoord bit; the block is gated by
0b100000). -/
theorem c2_counterexample :
    0x11 &&& 0b10000 ≠ 0 ∧
    (readPolVertex 0x11 (List.replicate 20 0)).toOption.map
      (fun p => p.1.unknown20) = some none := by decide

/-- Claim C2 (amended): for every vertex decoded under a mesh format mask,
the 2-float texture coordinate is always read, the three optional 2-float
blocks after it are present exactly on mask bits 0b100000, 0b1000000 and
0b10000000 respectively, the 4-float block exactly on bit 0b100000000, an
absent block is the `none` marker, and the bytes consumed are exactly the
record's span. -/
theorem c2_optional_blocks_follow_mask {mask : Nat} {s : Bytes}
    {v : PolVertex} {r : Bytes} (h : readPolVertex mask s = .ok (v, r)) :
    (v.unknown20.isSome = true ↔ mask &&& 0b100000 ≠ 0) ∧
    (v.unknown40.isSome = true ↔ mask &&& 0b1000000 ≠ 0) ∧
    (v.unknown80.isSome = true ↔ mask &&& 0b10000000 ≠ 0) ∧
    (v.unknown100.isSome = true ↔ mask &&& 0b100000000 ≠ 0) ∧
    s.length = r.length + vertexSpanSpec mask := by
  have hsk := readPolVertex_ok_skipE h
  rcases skipE_ok_iff.mp hsk with ⟨hle, hr⟩
  have hlen : s.length = r.length + vertexSpanSpec mask := by
    subst hr; simp [List.length_drop]; omega
  unfold readPolVertex at h
  by_cases h1 : hasComp mask 0b1 = true
  case neg => simp [h1] at h
  by_cases h10 : hasComp mask 0b10000 = true
  case neg => simp [h1, h10] at h
  simp only [h1, h10, not_true_eq_false, if_false, ite_false] at h
  rcases pbind_eq_ok.mp h with ⟨x, s1, hx, h⟩
  rcases pbind_eq_ok.mp h with ⟨y, s2, hy, h⟩
  rcases pbind_eq_ok.mp h with ⟨z, s3, hz, h⟩
  unfold readPolVertexRest at h
  rcases pbind_eq_ok.mp h with ⟨u4, t1, h4, h⟩
  rcases pbind_eq_ok.mp h with ⟨u8, t2, h8, h⟩
  rcases pbind_eq_ok.mp h with ⟨tu, t3, hu, h⟩
  rcases pbind_eq_ok.mp h with ⟨tv, t4, hv, h⟩
  rcases pbind_eq_ok.mp h with ⟨u20, t5, h20, h⟩
  rcases pbind_eq_ok.mp h with ⟨u40, t6, h40, h⟩
  rcases pbind_eq_ok.mp h with ⟨u80, t7, h80, h⟩
  rcases pbind_eq_ok.mp h with ⟨u100, t8, h100, h⟩
  simp only [Except.ok.injEq, Prod.mk.injEq] at h
  rw [← h.1]
  refine ⟨?_, ?_, ?_, ?_, hlen⟩ <;>
    simp only [optRead_isSome h20, optRead_isSome h40, optRead_isSome h80,
      optRead_isSome h100, hasComp] <;> simp

theorem c2_witness :
    (V2.unknown20.isSome = true ↔ 0x1FF &&& 0b100000 ≠ 0) ∧
    (V2.unknown40.isSome = true ↔ 0x1FF &&& 0b1000000 ≠ 0) ∧
    (V2.unknown80.isSome = true ↔ 0x1FF &&& 0b10000000 ≠ 0) ∧
    (V2.unknown100.isSome = true ↔ 0x1FF &&& 0b100000000 ≠ 0) ∧
    W2.length = ([] : Bytes).length + vertexSpanSpec 0x1FF :=
  c2_optional_blocks_follow_mask
    (by decide : readPolVertex 0x1FF W2 = .ok (V2, []))

/-- Claim C3 (counterexample): a 52-zero-byte mesh record has a format mask
lacking the Position bit yet decodes successfully, because its vertex count
is 0 and the mandatory-attribute check sits inside the vertex loop — so the
failure is not independent of the vertex count as claimed. -/
theorem c3_counterexample :
    (readPolMesh (List.replicate 52 0)).isOk = true ∧
    (readPolMesh (List.replicate 52 0)).toOption.map
      (fun p => p.1.vertex_type &&& 0b1) = some 0 := by decide

/-- Claim C3 (amended): for every mesh whose format mask lacks the Position
bit or the TexCoord bit and whose vertex count is positive, decoding the
mesh fails with `missingMandatoryAttribute`, regardless of the other mask
bits. -/
theorem c3_missing_mandatory {pre rest : Bytes} {m0 m1 m2 m3 c0 c1 c2 c3 : Nat}
    (hpre : pre.length = 24)
    (hmask : le32 m0 m1 m2 m3 &&& 0b1 = 0 ∨ le32 m0 m1 m2 m3 &&& 0b10000 = 0)
    (hvc : 0 < le32 c0 c1 c2 c3) :
    readPolMesh (pre ++ m0 :: m1 :: m2 :: m3 :: c0 :: c1 :: c2 :: c3 :: rest) =
      .error .missingMandatoryAttribute := by
  set l : Bytes := m0 :: m1 :: m2 :: m3 :: c0 :: c1 :: c2 :: c3 :: rest with hl
  have hsk1 : skipE 12 (pre ++ l) = .ok (pre.drop 12 ++ l) := by
    rw [skipE_ok_iff]
    refine ⟨by simp; omega, ?_⟩
    rw [List.drop_append_of_le_length (by omega)]
  have hdrop24 : (pre.drop 12).drop 12 = [] := by
    rw [List.drop_drop]
    exact List.drop_eq_nil_of_le (by omega)
  have hsk2 : skipE 12 (pre.drop 12 ++ l) = .ok l := by
    rw [skipE_ok_iff]
    refine ⟨by simp; omega, ?_⟩
    rw [List.drop_append_of_le_length (by simp; omega), hdrop24]
    simp
  have hsk1w : skipE (4 * 3) (pre ++ l) = .ok (pre.drop 12 ++ l) := hsk1
  have hsk2w : skipE (4 * 3) (pre.drop 12 ++ l) = .ok l := hsk2
  rcases skipE_readWords hsk1w with ⟨amin, haminr⟩
  rcases skipE_readWords hsk2w with ⟨amax, hamaxr⟩
  have hmaskr : readU32 l = .ok (le32 m0 m1 m2 m3,
      c0 :: c1 :: c2 :: c3 :: rest) := by rw [hl]; rfl
  have hvcr : readU32 (c0 :: c1 :: c2 :: c3 :: rest) =
      .ok (le32 c0 c1 c2 c3, rest) := rfl
  have hbit : hasComp (le32 m0 m1 m2 m3) 0b1 = false ∨
      hasComp (le32 m0 m1 m2 m3) 0b10000 = false := by
    rcases hmask with hm | hm
    · exact Or.inl (by simp [hasComp, hm])
    · exact Or.inr (by simp [hasComp, hm])
  have hvert := readVertices_missing (s := rest) hbit hvc
  simp [readPolMesh, haminr, hamaxr, hmaskr, hvcr, hvert]

theorem c3_witness :
    readPolMesh (List.replicate 24 0 ++
      0 :: 0 :: 0 :: 0 :: 1 :: 0 :: 0 :: 0 :: ([] : Bytes)) =
      .error .missingMandatoryAttribute :=
  c3_missing_mandatory (by decide) (Or.inl (by decide)) (by decide)

/-- Claim C4: every input of at least 4 bytes whose first 4 bytes differ
from "POLY" fails with `invalidSignature` (and no document is produced);
every input whose first 4 bytes are "POLY" proceeds past the signature
state into the body decoder. -/
theorem c4_signature (bs : Bytes) (h4 : 4 ≤ bs.length) :
    (bs.take 4 ≠ SIG → pol_load_from_file bs = .error .invalidSignature) ∧
    (bs.take 4 = SIG → pol_load_from_file bs = pol_load_body (bs.drop 4)) := by
  have hrb : readBytes 4 bs = .ok (bs.take 4, bs.drop 4) := by
    simp [readBytes, h4]
  constructor
  · intro hne; simp [pol_load_from_file, hrb, hne]
  · intro heq; simp [pol_load_from_file, hrb, heq]

theorem c4_witness :
    pol_load_from_file [0x50, 0x4f, 0x4c, 0x58] = .error .invalidSignature :=
  (c4_signature [0x50, 0x4f, 0x4c, 0x58] (by decide)).1 (by decide)

/-- Claim C5: in every successfully decoded document, transform nodes are
present exactly when the format flag exceeds 100 and the count field read
there is positive; when the flag is at most 100 the count field is not read
(the section leaves the stream untouched), the stored count is 0 and the
transform-node sequence is empty. -/
theorem c5_transform_nodes :
    (∀ (bs : Bytes) (f : PolFile), pol_load_from_file bs = .ok f →
      ((f.unknown_data ≠ [] ↔ 100 < f.some_flag ∧ 0 < f.unknown_count) ∧
       (f.some_flag ≤ 100 → f.unknown_count = 0 ∧ f.unknown_data = []))) ∧
    (∀ (flag : Nat) (s : Bytes), flag ≤ 100 →
      readTransformSection flag s = .ok ((0, []), s)) := by
  constructor
  · intro bs f h
    rcases pol_load_ok_elim h with ⟨s1, s2, s3, s4, s5, r, _, _, _, _,
      hud, _⟩
    rcases readTransformSection_inv hud with ⟨hlen, hle⟩
    constructor
    · constructor
      · intro hne
        by_cases hf : 100 < f.some_flag
        · refine ⟨hf, ?_⟩
          have hpos : 0 < f.unknown_data.length := List.length_pos.mpr hne
          omega
        · rcases hle hf with ⟨_, hd, _⟩
          exact absurd hd hne
      · rintro ⟨hf, hc⟩ hnil
        rw [hnil] at hlen
        simp at hlen
        omega
    · intro hf
      rcases hle (by omega) with ⟨hc, hd, _⟩
      exact ⟨hc, hd⟩
  · intro flag s hflag
    simp [readTransformSection, Nat.not_lt.mpr hflag]

theorem c5_witness :
    ((F1.unknown_data ≠ [] ↔ 100 < F1.some_flag ∧ 0 < F1.unknown_count) ∧
     (F1.some_flag ≤ 100 → F1.unknown_count = 0 ∧ F1.unknown_data = [])) ∧
    readTransformSection 1 [] = .ok ((0, []), []) :=
  ⟨c5_transform_nodes.1 W1 F1 (by decide),
    c5_transform_nodes.2 1 [] (by decide)⟩

/-- Claim C6: for every 32-bit mask word, the standalone size calculator
returns the low 31 bits when the sign bit (bit 31, the i32 sign) is set,
and otherwise the sum of the per-bit contributions 12, 12, 4, 4, 8, 8, 8,
8, 16 for bits 0 through 8, each added exactly when the bit is set. -/
theorem c6_calc_vertex_size (t : Nat) (ht : t < 2 ^ 32) :
    calc_vertex_size t =
      if 2 ^ 31 ≤ t then t % 2 ^ 31
      else
        (if t.testBit 0 then 12 else 0) + (if t.testBit 1 then 12 else 0) +
        (if t.testBit 2 then 4 else 0) + (if t.testBit 3 then 4 else 0) +
        (if t.testBit 4 then 8 else 0) + (if t.testBit 5 then 8 else 0) +
        (if t.testBit 6 then 8 else 0) + (if t.testBit 7 then 8 else 0) +
        (if t.testBit 8 then 16 else 0) := by
  have h31 : (2 : Nat) ^ 31 = 2147483648 := by norm_num
  have h32 : (2 : Nat) ^ 32 = 4294967296 := by norm_num
  have hsign : t.testBit 31 = decide (2 ^ 31 ≤ t) := by
    rw [Nat.testBit_to_div_mod]
    refine decide_eq_decide.mpr ?_
    norm_num at ht ⊢
    omega
  have hand : ∀ k : Nat, (t &&& 2 ^ k != 0) = t.testBit k := by
    intro k
    rw [Nat.and_two_pow]
    cases hb : t.testBit k
    · simp
    · simp [Nat.pow_eq_zero]
  have e0 : (t &&& 1 != 0) = t.testBit 0 := by
    have hp : (1 : Nat) = 2 ^ 0 := by norm_num
    rw [hp]; exact hand 0
  have e1 : (t &&& 2 != 0) = t.testBit 1 := by
    have hp : (2 : Nat) = 2 ^ 1 := by norm_num
    rw [hp]; exact hand 1
  have e2 : (t &&& 4 != 0) = t.testBit 2 := by
    have hp : (4 : Nat) = 2 ^ 2 := by norm_num
    rw [hp]; exact hand 2
  have e3 : (t &&& 8 != 0) = t.testBit 3 := by
    have hp : (8 : Nat) = 2 ^ 3 := by norm_num
    rw [hp]; exact hand 3
  have e4 : (t &&& 0x10 != 0) = t.testBit 4 := by
    have hp : (0x10 : Nat) = 2 ^ 4 := by norm_num
    rw [hp]; exact hand 4
  have e5 : (t &&& 0x20 != 0) = t.testBit 5 := by
    have hp : (0x20 : Nat) = 2 ^ 5 := by norm_num
    rw [hp]; exact hand 5
  have e6 : (t &&& 0x40 != 0) = t.testBit 6 := by
    have hp : (0x40 : Nat) = 2 ^ 6 := by norm_num
    rw [hp]; exact hand 6
  have e7 : (t &&& 0x80 != 0) = t.testBit 7 := by
    have hp : (0x80 : Nat) = 2 ^ 7 := by norm_num
    rw [hp]; exact hand 7
  have e8 : (t &&& 0x100 != 0) = t.testBit 8 := by
    have hp : (0x100 : Nat) = 2 ^ 8 := by norm_num
    rw [hp]; exact hand 8
  by_cases hge : 2 ^ 31 ≤ t
  · rw [if_pos hge]
    have hb : t.testBit 31 = true := by rw [hsign]; simpa using hge
    rw [calc_vertex_size, if_pos hb]
    have hmod := Nat.and_pow_two_sub_one_eq_mod t 31
    norm_num at hmod ⊢
    exact hmod
  · rw [if_neg hge]
    have hb : t.testBit 31 = false := by rw [hsign]; simpa using hge
    rw [calc_vertex_size, if_neg (by simp [hb]), e0, e1, e2, e3, e4, e5,
      e6, e7, e8]

theorem c6_witness :
    0x80000013 < 2 ^ 32 ∧ calc_vertex_size 0x80000013 = 19 :=
  ⟨by norm_num, by
    rw [c6_calc_vertex_size 0x80000013 (by norm_num)]; decide⟩

/-- Claim C7: every material info of every successfully decoded document
carries a clamped float in the closed interval from 0 to 128, whatever the
stored pattern was (NaN and infinities included). -/
theorem c7_clamp (bs : Bytes) (f : PolFile) (mesh : PolMesh)
    (m : PolMaterialInfo) (hf : pol_load_from_file bs = .ok f)
    (hmesh : mesh ∈ f.meshes) (hm : m ∈ mesh.material_info) :
    ∃ q : ℚ, m.unknown_float = .fin q ∧ 0 ≤ q ∧ q ≤ 128 := by
  rcases pol_load_ok_elim hf with ⟨s1, s2, s3, s4, s5, r, _, _, _, _, _,
    hmeshes⟩
  rcases readMeshes_mem hmeshes hmesh with ⟨sm, rm, hmr⟩
  rcases readPolMesh_mem_mat hmr hm with ⟨sa, ra, hma⟩
  rcases readMaterialInfo_float hma with ⟨w, hw⟩
  rw [hw]
  exact clampF32_range (decodeF32 w)

theorem c7_witness :
    (∃ q : ℚ, M7.unknown_float = .fin q ∧ 0 ≤ q ∧ q ≤ 128) ∧
    M7.unknown_float = .fin 128 :=
  ⟨c7_clamp W7 F7 Mesh7 M7 (by decide) (by decide) (by decide), by decide⟩

/-- Claim C8: a light-map name field is read as a fixed 64-byte block,
truncated at the first zero byte; the read succeeds with the cursor 64
bytes further exactly when those bytes are valid UTF-8, and fails with
`invalidText` otherwise. -/
theorem c8_light_map_name (s : Bytes) (h : 64 ≤ s.length) :
    (utf8Valid ((s.take 64).takeWhile (· != 0)) = true →
      readLightMapName s = .ok ((s.take 64).takeWhile (· != 0), s.drop 64)) ∧
    (utf8Valid ((s.take 64).takeWhile (· != 0)) = false →
      readLightMapName s = .error .invalidText) := by
  have hrb : readBytes 64 s = .ok (s.take 64, s.drop 64) := by
    simp [readBytes, h]
  constructor
  · intro hv; simp [readLightMapName, hrb, hv]
  · intro hv; simp [readLightMapName, hrb, hv]

theorem c8_witness :
    readLightMapName (0x41 :: List.replicate 63 0) = .ok ([0x41], []) := by
  have h := (c8_light_map_name (0x41 :: List.replicate 63 0)
    (by decide)).1 (by decide)
  rw [h]
  decide

/-- Claim C9: every successfully decoded document has as many node
descriptors and as many meshes as its stored mesh count. -/
theorem c9_counts (bs : Bytes) (f : PolFile)
    (h : pol_load_from_file bs = .ok f) :
    f.geom_node_descs.length = f.mesh_count ∧
    f.meshes.length = f.mesh_count := by
  rcases pol_load_ok_elim h with ⟨s1, s2, s3, s4, s5, r, _, _, _, hdescs,
    _, hmeshes⟩
  exact ⟨readGeomNodeDescs_length hdescs, readMeshes_length hmeshes⟩

theorem c9_witness :
    F1.geom_node_descs.length = F1.mesh_count ∧
    F1.meshes.length = F1.mesh_count :=
  c9_counts W1 F1 (by decide)

/-- Claim C10: in every successfully decoded document every stored count
equals the length of the sequence it prefixes: the transform count (0 when
the flag is at most 100), each mesh's vertex, material and triangle
counts, and each material's light-map count. -/
theorem c10_all_counts (bs : Bytes) (f : PolFile)
    (h : pol_load_from_file bs = .ok f) :
    f.unknown_data.length = f.unknown_count ∧
    (f.some_flag ≤ 100 → f.unknown_count = 0) ∧
    ∀ mesh ∈ f.meshes,
      mesh.vertices.length = mesh.vertex_count ∧
      mesh.material_info.length = mesh.material_info_count ∧
      mesh.triangles.length = mesh.triangle_count ∧
      ∀ m ∈ mesh.material_info,
        m.light_map_names.length = m.light_map_count := by
  rcases pol_load_ok_elim h with ⟨s1, s2, s3, s4, s5, r, _, _, _, _, hud,
    hmeshes⟩
  rcases readTransformSection_inv hud with ⟨hlen, hle⟩
  refine ⟨hlen, fun hf => (hle (by omega)).1, fun mesh hmesh => ?_⟩
  rcases readMeshes_mem hmeshes hmesh with ⟨sm, rm, hmr⟩
  rcases readPolMesh_fields hmr with ⟨h1, h2, h3⟩
  refine ⟨h1, h2, h3, fun m hm => ?_⟩
  rcases readPolMesh_mem_mat hmr hm with ⟨sa, ra, hma⟩
  exact readMaterialInfo_lm_length hma

theorem c10_witness :
    F7.unknown_data.length = F7.unknown_count ∧
    (F7.some_flag ≤ 100 → F7.unknown_count = 0) ∧
    ∀ mesh ∈ F7.meshes,
      mesh.vertices.length = mesh.vertex_count ∧
      mesh.material_info.length = mesh.material_info_count ∧
      mesh.triangles.length = mesh.triangle_count ∧
      ∀ m ∈ mesh.material_info,
        m.light_map_names.length = m.light_map_count :=
  c10_all_counts W7 F7 (by decide)

end Pol
